import Mathlib

/-!
# OutlookWindowHook: the interception module and the supervisor

A shallow embedding of `OlkWindowHook.Dll.cpp` (the hook, the window
override, the two exported lifecycle functions) and of the injection
and monitoring code of `OlkWindowHook.Exe.cpp`.

Conventions of the embedding

* Handles, process identifiers and message numbers are natural numbers,
  `0` is `NULL`; `LRESULT` and `LPARAM` are integers.
* The module's global variables are the fields of `Globals`, passed in and
  out of every function that touches them.
* What the operating system answers is a record of functions (`OS`),
  given per invocation; calls made to the operating system are returned as a
  list of `OSCall`, in program order.
* `std::unordered_map` is an association list read through its first pair
  for a key; the operations of the map (`find`, `count`, `operator[]`) never
  add a second pair for a key.
-/

namespace OlkWindowHook

/-! ## Basic types and Win32 constants -/

abbrev HWND := Nat
abbrev HANDLE := Nat
abbrev HHOOK := Nat
abbrev DWORD := Nat
abbrev UINT := Nat
abbrev WPARAM := Nat
abbrev LPARAM := Int
abbrev LRESULT := Int

/-- Message number of `WM_CLOSE` (winuser.h). -/
def WM_CLOSE : UINT := 0x0010

/-- The `nCmdShow` value `SW_HIDE` (winuser.h). -/
def SW_HIDE : Int := 0

/-- The `MessageBox` flag `MB_ICONERROR` (winuser.h). -/
def MB_ICONERROR : Nat := 0x10

/-- The caption every message box of the program uses. -/
def caption : String := "Outlook Window Hook"

/-- Calls into the operating system that the embedded functions make, with
the arguments that matter. `KeepDLLLoadedThread` is
`std::thread(KeepDLLLoaded).detach()`. -/
inductive OSCall where
  | OpenProcess (processId : DWORD)
  | CloseHandle (h : HANDLE)
  | SetWindowSubclass (hwnd : HWND) (uIdSubclass : Nat) (dwRefData : Nat)
  | ShowWindow (hwnd : HWND) (nCmdShow : Int)
  | DefSubclassProc (hwnd : HWND) (uMsg : UINT) (wParam : WPARAM) (lParam : LPARAM)
  | CallNextHookEx (hhk : HHOOK) (nCode : Int) (wParam : WPARAM) (hwnd : HWND) (message : UINT)
  | SetWindowsHookEx
  | UnhookWindowsHookEx (hhk : HHOOK)
  | MessageBox (text : String) (title : String) (uType : Nat)
  | KeepDLLLoadedThread
  | VirtualAllocEx (hProcess : HANDLE) (size : Nat)
  | WriteProcessMemory (hProcess : HANDLE) (addr : Nat) (data : String) (size : Nat)
  | CreateRemoteThread (hProcess : HANDLE) (param : Nat)
  | WaitForSingleObject (h : HANDLE)
  | VirtualFreeEx (hProcess : HANDLE) (addr : Nat)
  deriving DecidableEq, Repr

/-! ## `std::unordered_map` -/

/-- Contents of a `std::unordered_map<K, V>` with natural-number keys. -/
abbrev UMap (β : Type) := List (Nat × β)

namespace UMap

/-- The value of `m.find(k)`: `none` is `m.end()`. -/
def find {β : Type} : UMap β → Nat → Option β
  | [], _ => none
  | (k', v) :: t, k => if k' = k then some v else find t k

/-- The value of `m.count(k)`. -/
def count {β : Type} (m : UMap β) (k : Nat) : Nat :=
  if (find m k).isSome then 1 else 0

/-- The map after `m[k] = v`. -/
def assign {β : Type} : UMap β → Nat → β → UMap β
  | [], k, v => [(k, v)]
  | (k', v') :: t, k, v => if k' = k then (k, v) :: t else (k', v') :: assign t k v

/-- Reading `m[k]`: the value, and the map, which gains a value-initialised
entry when the key was absent. -/
def index {β : Type} (m : UMap β) (k : Nat) (dflt : β) : β × UMap β :=
  match find m k with
  | some v => (v, m)
  | none => (dflt, assign m k dflt)

end UMap

/-! ## The interception module (`OlkWindowHook.Dll.cpp`) -/

/-- The global variables of the module. -/
structure Globals where
  hHookCallWndProc : HHOOK
  ignoreCloseMessage : UMap Bool
  firstOlkWindowMap : UMap HWND
  hookSet : Bool
  deriving DecidableEq, Repr

/-- The globals as the module is loaded. -/
def Globals.initial : Globals :=
  { hHookCallWndProc := 0, ignoreCloseMessage := [], firstOlkWindowMap := [], hookSet := false }

/-- Answers of the operating system during one invocation of a function of
the module. `OpenProcess` and `SetWindowsHookEx` answer `0` for `NULL`;
`GetModuleBaseName` answers `none` when it returns length 0. -/
structure OS where
  GetWindowThreadProcessId : HWND → DWORD
  OpenProcess : DWORD → HANDLE
  GetModuleBaseName : HANDLE → Option String
  DefSubclassProc : HWND → UINT → WPARAM → LPARAM → LRESULT
  CallNextHookEx : HHOOK → Int → WPARAM → HWND → UINT → LRESULT
  SetWindowsHookEx : HHOOK
  GetLastError : DWORD

/-- Lower-casing of the C runtime in the "C" locale. -/
def towlower (c : Char) : Char := c.toLower

/-- Case-insensitive string comparison (`_wcsicmp`): negative, zero or
positive as the lower-cased first string is below, equal to or above the
lower-cased second one. -/
def tcsicmp : List Char → List Char → Int
  | [], [] => 0
  | [], _ :: _ => -1
  | _ :: _, [] => 1
  | a :: as, b :: bs =>
    if (towlower a).toNat < (towlower b).toNat then -1
    else if (towlower b).toNat < (towlower a).toNat then 1
    else tcsicmp as bs

/-- The function `IsOlkExeProcess(hwnd)`: its result and the calls made. -/
def IsOlkExeProcess (os : OS) (hwnd : HWND) : Bool × List OSCall :=
  let procId := os.GetWindowThreadProcessId hwnd
  let hProcess := os.OpenProcess procId
  if hProcess ≠ 0 then
    match os.GetModuleBaseName hProcess with
    | some processName =>
      (decide (tcsicmp processName.toList "olk.exe".toList = 0),
        [OSCall.OpenProcess procId, OSCall.CloseHandle hProcess])
    | none => (false, [OSCall.OpenProcess procId, OSCall.CloseHandle hProcess])
  else (false, [OSCall.OpenProcess procId])

/-- The function `IsFirstOlkExeWindow(hwnd)`: its result and the globals
afterwards. The registry is read and written under `mapMutex`. -/
def IsFirstOlkExeWindow (os : OS) (hwnd : HWND) (g : Globals) : Bool × Globals :=
  let procId := os.GetWindowThreadProcessId hwnd
  if g.firstOlkWindowMap.find procId = none then
    (true, { g with firstOlkWindowMap := g.firstOlkWindowMap.assign procId hwnd })
  else
    let r := g.firstOlkWindowMap.index procId 0
    (decide (r.1 = hwnd), { g with firstOlkWindowMap := r.2 })

/-- The override `SubclassProc(hwnd, uMsg, wParam, lParam, ...)`: the
result, the globals afterwards and the calls made. -/
def SubclassProc (os : OS) (hwnd : HWND) (uMsg : UINT) (wParam : WPARAM) (lParam : LPARAM)
    (g : Globals) : LRESULT × Globals × List OSCall :=
  if uMsg = WM_CLOSE then
    let r := g.ignoreCloseMessage.index hwnd false
    if r.1 then
      (0, { g with ignoreCloseMessage := r.2.assign hwnd false }, [])
    else
      (os.DefSubclassProc hwnd uMsg wParam lParam, { g with ignoreCloseMessage := r.2 },
        [OSCall.DefSubclassProc hwnd uMsg wParam lParam])
  else
    (os.DefSubclassProc hwnd uMsg wParam lParam, g,
      [OSCall.DefSubclassProc hwnd uMsg wParam lParam])

/-- The `CWPSTRUCT` that the hook's `lParam` points to. -/
structure CWPSTRUCT where
  lParam : LPARAM
  wParam : WPARAM
  message : UINT
  hwnd : HWND
  deriving DecidableEq, Repr

/-- The hook `CallWndProc(nCode, wParam, lParam)`, with `pCwp` the structure behind
`lParam`: the result, the globals afterwards and the calls made. -/
def CallWndProc (os : OS) (nCode : Int) (wParam : WPARAM) (pCwp : CWPSTRUCT) (g : Globals) :
    LRESULT × Globals × List OSCall :=
  let next : List OSCall → Globals → LRESULT × Globals × List OSCall := fun tr g1 =>
    (os.CallNextHookEx g1.hHookCallWndProc nCode wParam pCwp.hwnd pCwp.message, g1,
      tr ++ [OSCall.CallNextHookEx g1.hHookCallWndProc nCode wParam pCwp.hwnd pCwp.message])
  if 0 ≤ nCode then
    if pCwp.message = WM_CLOSE then
      let q := IsOlkExeProcess os pCwp.hwnd
      if q.1 then
        let f := IsFirstOlkExeWindow os pCwp.hwnd g
        if f.1 then
          let g1 := f.2
          let tr1 :=
            if g1.ignoreCloseMessage.count pCwp.hwnd = 0 then
              [OSCall.SetWindowSubclass pCwp.hwnd 1 0]
            else []
          (0, { g1 with ignoreCloseMessage := g1.ignoreCloseMessage.assign pCwp.hwnd true },
            q.2 ++ tr1 ++ [OSCall.ShowWindow pCwp.hwnd SW_HIDE])
        else next q.2 f.2
      else next q.2 g
    else next [] g
  else next [] g

/-- The exported `SetHook()`: the globals afterwards and the calls made. -/
def SetHook (os : OS) (g : Globals) : Globals × List OSCall :=
  if g.hookSet = false then
    let h := os.SetWindowsHookEx
    if h = 0 then
      ({ g with hHookCallWndProc := h },
        [OSCall.SetWindowsHookEx,
         OSCall.MessageBox
           ("Failed to install WH_CALLWNDPROC hook! Error: " ++
             toString (Int.bmod os.GetLastError (2 ^ 32)) ++ "\n") caption MB_ICONERROR,
         OSCall.KeepDLLLoadedThread])
    else
      ({ g with hHookCallWndProc := h, hookSet := true },
        [OSCall.SetWindowsHookEx, OSCall.KeepDLLLoadedThread])
  else (g, [])

/-- The exported `RemoveHook()`: the globals afterwards and the calls made. -/
def RemoveHook (g : Globals) : Globals × List OSCall :=
  if g.hHookCallWndProc ≠ 0 then
    ({ g with hHookCallWndProc := 0, hookSet := false },
      [OSCall.UnhookWindowsHookEx g.hHookCallWndProc])
  else (g, [])

/-! ## Message deliveries inside the target process -/

/-- One invocation of a callback of the module by the window system: of the
hook, or of the override of a window. -/
inductive Event where
  | hook (os : OS) (nCode : Int) (wParam : WPARAM) (pCwp : CWPSTRUCT)
  | override (os : OS) (hwnd : HWND) (uMsg : UINT) (wParam : WPARAM) (lParam : LPARAM)

/-- The globals after an event and the calls it made. -/
def Event.run : Event → Globals → Globals × List OSCall
  | Event.hook os nCode wParam pCwp, g => (CallWndProc os nCode wParam pCwp g).2
  | Event.override os hwnd uMsg wParam lParam, g => (SubclassProc os hwnd uMsg wParam lParam g).2

/-- The globals after a sequence of events and all calls made, in order. -/
def runEvents : List Event → Globals → Globals × List OSCall
  | [], g => (g, [])
  | e :: es, g =>
    let r := e.run g
    let r' := runEvents es r.1
    (r'.1, r.2 ++ r'.2)

/-- The window an event is about. -/
def Event.hwnd : Event → HWND
  | Event.hook _ _ _ pCwp => pCwp.hwnd
  | Event.override _ hwnd _ _ _ => hwnd

/-- A step of the history of window `A`: the hook sees the `WM_CLOSE` of a
close attempt on `A`, the override of `A` sees it, or a callback is invoked
for some other reason. -/
inductive Step where
  | hookA (os : OS) (nCode : Int) (hookWParam : WPARAM) (wParam : WPARAM) (lParam : LPARAM)
  | overrideA (os : OS) (wParam : WPARAM) (lParam : LPARAM)
  | other (e : Event)

/-- The event of a step of the history of window `A`. -/
def Step.event (A : HWND) : Step → Event
  | Step.hookA os nCode hookWParam wParam lParam =>
    Event.hook os nCode hookWParam
      { lParam := lParam, wParam := wParam, message := WM_CLOSE, hwnd := A }
  | Step.overrideA os wParam lParam => Event.override os A WM_CLOSE wParam lParam
  | Step.other e => e

/-- The events of a history of window `A`. -/
def historyEvents (A : HWND) (steps : List Step) : List Event :=
  steps.map (Step.event A)

/-- Admissible histories of window `A`, main window of the qualifying process
`p`. Every close attempt on `A` reaches the hook first and the override next;
`pending` says that the hook has seen an attempt the override has not seen
yet. The hook is asked to process the message (`nCode` is not negative) while
the operating system reports `p` as the owner of `A` and `olk.exe` as its
executable. Events about other windows come at any point. -/
def admissible (p : DWORD) (A : HWND) : Bool → List Step → Prop
  | _, [] => True
  | false, Step.hookA os nCode _ _ _ :: rest =>
    0 ≤ nCode ∧ os.GetWindowThreadProcessId A = p ∧ (IsOlkExeProcess os A).1 = true ∧
      admissible p A true rest
  | true, Step.hookA _ _ _ _ _ :: _ => False
  | true, Step.overrideA _ _ _ :: rest => admissible p A false rest
  | false, Step.overrideA _ _ _ :: _ => False
  | pending, Step.other e :: rest => e.hwnd ≠ A ∧ admissible p A pending rest

/-- What holds along an admissible history: `A` is registered for `p`, and
the flag of `A` is armed while an attempt is pending. -/
def mainWindowInv (p : DWORD) (A : HWND) (pending : Bool) (g : Globals) : Prop :=
  g.firstOlkWindowMap.find p = some A ∧
    (pending = true → g.ignoreCloseMessage.find A = some true)

/-- The globals after a sequence of `IsFirstOlkExeWindow` calls, each with
the operating system's answers at that time. -/
def runIsFirst : List (OS × HWND) → Globals → Globals
  | [], g => g
  | (os, hwnd) :: cs, g => runIsFirst cs (IsFirstOlkExeWindow os hwnd g).2

/-- The hook state of the module: the hook handle and the active flag. -/
def Globals.hookState (g : Globals) : HHOOK × Bool := (g.hHookCallWndProc, g.hookSet)

/-! ## Two threads in `IsFirstOlkExeWindow` -/

/-- Program points of a thread inside `IsFirstOlkExeWindow`: before
`GetWindowThreadProcessId`, before taking `mapMutex`, before the `find`
test, before the insertion, before the comparison, before the lock guard
releases the mutex, and after the return. -/
inductive PC where
  | start | lock | test | insert | compare | unlock | done
  deriving DecidableEq, Repr

/-- A thread running `IsFirstOlkExeWindow(hwnd)`: its program point, its
local `procId` and the value it returns. -/
structure Thread where
  hwnd : HWND
  pc : PC
  procId : DWORD
  ret : Bool
  deriving DecidableEq, Repr

/-- Two threads, the registry they share and the owner of `mapMutex`
(`none` when it is free; `false` and `true` name the threads). -/
structure Sys where
  firstOlkWindowMap : UMap HWND
  mapMutex : Option Bool
  thread : Bool → Thread

/-- The system with both threads about to enter the function. -/
def Sys.init (m : UMap HWND) (w0 w1 : HWND) : Sys :=
  { firstOlkWindowMap := m, mapMutex := none,
    thread := fun t =>
      { hwnd := if t then w1 else w0, pc := PC.start, procId := 0, ret := false } }

/-- Replace the state of thread `t`. -/
def Sys.setThread (s : Sys) (t : Bool) (th : Thread) : Sys :=
  { s with thread := fun u => if u = t then th else s.thread u }

/-- One step of thread `t`. A thread that waits for the mutex while the
other holds it does not move; a thread that has returned does not move. -/
def Sys.step (os : OS) (t : Bool) (s : Sys) : Sys :=
  let th := s.thread t
  match th.pc with
  | PC.start =>
    s.setThread t { th with procId := os.GetWindowThreadProcessId th.hwnd, pc := PC.lock }
  | PC.lock =>
    match s.mapMutex with
    | none => { s.setThread t { th with pc := PC.test } with mapMutex := some t }
    | some _ => s
  | PC.test =>
    if s.firstOlkWindowMap.find th.procId = none then s.setThread t { th with pc := PC.insert }
    else s.setThread t { th with pc := PC.compare }
  | PC.insert =>
    { s.setThread t { th with ret := true, pc := PC.unlock } with
      firstOlkWindowMap := s.firstOlkWindowMap.assign th.procId th.hwnd }
  | PC.compare =>
    let r := s.firstOlkWindowMap.index th.procId 0
    { s.setThread t { th with ret := decide (r.1 = th.hwnd), pc := PC.unlock } with
      firstOlkWindowMap := r.2 }
  | PC.unlock => { s.setThread t { th with pc := PC.done } with mapMutex := none }
  | PC.done => s

/-- Run a schedule: the list names the thread that moves at each step. -/
def Sys.run (os : OS) : List Bool → Sys → Sys
  | [], s => s
  | t :: ts, s => Sys.run os ts (Sys.step os t s)

/-- Both threads have returned. -/
def Sys.finished (s : Sys) : Prop := (s.thread false).pc = PC.done ∧ (s.thread true).pc = PC.done

/-- Program points at which the thread owns `mapMutex`. -/
def PC.holdsLock : PC → Bool
  | PC.test => true
  | PC.insert => true
  | PC.compare => true
  | PC.unlock => true
  | _ => false

/-- Program points at which the return value is computed. -/
def PC.returned : PC → Bool
  | PC.unlock => true
  | PC.done => true
  | _ => false

/-- Number of steps a thread that is not kept waiting needs to return. -/
def PC.rank : PC → Nat
  | PC.start => 5
  | PC.lock => 4
  | PC.test => 3
  | PC.insert => 2
  | PC.compare => 2
  | PC.unlock => 1
  | PC.done => 0

/-- What holds of every state two threads reach when they call
`IsFirstOlkExeWindow` for windows `w false` and `w true` of process `p`:
the mutex is owned exactly by a thread inside the guarded block, the
insertion is reached only while `p` has no entry and the comparison only
while it has one, a computed return value says whether the entry of `p` is
the window of the thread, and an entry of `p` is the window of a thread that
has computed its value. -/
structure Sys.Inv (p : DWORD) (w : Bool → HWND) (s : Sys) : Prop where
  hwnd : ∀ t, (s.thread t).hwnd = w t
  procId : ∀ t, (s.thread t).pc ≠ PC.start → (s.thread t).procId = p
  mutex : ∀ t, s.mapMutex = some t ↔ (s.thread t).pc.holdsLock = true
  atInsert : ∀ t, (s.thread t).pc = PC.insert → s.firstOlkWindowMap.find p = none
  atCompare : ∀ t, (s.thread t).pc = PC.compare → s.firstOlkWindowMap.find p ≠ none
  found : ∀ t, (s.thread t).pc.returned = true → s.firstOlkWindowMap.find p ≠ none
  ret : ∀ t, (s.thread t).pc.returned = true →
    ((s.thread t).ret = true ↔ s.firstOlkWindowMap.find p = some (w t))
  winner : ∀ x, s.firstOlkWindowMap.find p = some x →
    ∃ t, x = w t ∧ (s.thread t).pc.returned = true

/-! ## The supervisor (`OlkWindowHook.Exe.cpp`) -/

/-- An entry of a process snapshot. -/
structure PROCESSENTRY32 where
  th32ProcessID : DWORD
  szExeFile : String
  deriving DecidableEq, Repr

/-- The loop of `FindProcessId` over the entries of the snapshot. -/
def FindProcessId.scan (processName : String) : List PROCESSENTRY32 → DWORD
  | [] => 0
  | pe32 :: rest =>
    if pe32.szExeFile = processName then pe32.th32ProcessID
    else FindProcessId.scan processName rest

/-- The function `FindProcessId(processName)` on the snapshot the operating system gives;
`none` is `INVALID_HANDLE_VALUE`. -/
def FindProcessId (snapshot : Option (List PROCESSENTRY32)) (processName : String) : DWORD :=
  match snapshot with
  | none => 0
  | some entries => FindProcessId.scan processName entries

/-- Answers of the operating system during one `InjectDLL`; handles and
addresses are `0` for `NULL`. -/
structure InjectOS where
  OpenProcess : DWORD → HANDLE
  VirtualAllocEx : HANDLE → Nat → Nat
  WriteProcessMemory : HANDLE → Nat → String → Nat → Bool
  CreateRemoteThread : HANDLE → Nat → HANDLE

/-- Error text of `InjectDLL` when `OpenProcess` fails. -/
def msgOpenFailed : String := "Failed to open target process"

/-- Error text of `InjectDLL` when `VirtualAllocEx` fails. -/
def msgAllocFailed : String := "Failed to allocate memory in target process"

/-- Error text of `InjectDLL` when `CreateRemoteThread` fails. -/
def msgThreadFailed : String := "Failed to create remote thread"

/-- The function `InjectDLL(processID, dllPath)`: the calls it makes, in order. The path
is a string of `wchar_t`, two bytes each. -/
def InjectDLL (os : InjectOS) (processID : DWORD) (dllPath : String) : List OSCall :=
  let hProcess := os.OpenProcess processID
  if hProcess = 0 then
    [OSCall.OpenProcess processID, OSCall.MessageBox msgOpenFailed caption MB_ICONERROR]
  else
    let pathLength := (dllPath.length + 1) * 2
    let pLibRemote := os.VirtualAllocEx hProcess pathLength
    if pLibRemote = 0 then
      [OSCall.OpenProcess processID, OSCall.VirtualAllocEx hProcess pathLength,
       OSCall.MessageBox msgAllocFailed caption MB_ICONERROR, OSCall.CloseHandle hProcess]
    else
      let hThread := os.CreateRemoteThread hProcess pLibRemote
      if hThread = 0 then
        [OSCall.OpenProcess processID, OSCall.VirtualAllocEx hProcess pathLength,
         OSCall.WriteProcessMemory hProcess pLibRemote dllPath pathLength,
         OSCall.CreateRemoteThread hProcess pLibRemote,
         OSCall.MessageBox msgThreadFailed caption MB_ICONERROR,
         OSCall.VirtualFreeEx hProcess pLibRemote, OSCall.CloseHandle hProcess]
      else
        [OSCall.OpenProcess processID, OSCall.VirtualAllocEx hProcess pathLength,
         OSCall.WriteProcessMemory hProcess pLibRemote dllPath pathLength,
         OSCall.CreateRemoteThread hProcess pLibRemote,
         OSCall.WaitForSingleObject hThread,
         OSCall.VirtualFreeEx hProcess pLibRemote, OSCall.CloseHandle hThread,
         OSCall.CloseHandle hProcess]

/-- What the body of `MonitorProcess` does, call by call. -/
inductive MonitorAction where
  | InjectDLL (processID : DWORD) (dllPath : String) (calls : List OSCall)
  | LoadLibrary (path : String)
  | SetHook
  | RemoveHook
  | FreeLibrary (hModule : Nat)
  | MessageBox (text : String) (title : String) (uType : Nat)
  | Sleep (ms : Nat)
  deriving DecidableEq, Repr

/-- Answers of the operating system during one iteration of the loop of
`MonitorProcess`. -/
structure MonitorOS where
  snapshot : Option (List PROCESSENTRY32)
  inject : InjectOS
  LoadLibrary : String → Nat
  GetProcAddress : Nat → String → Bool

/-- The variables of `MonitorProcess`: the local `prevProcessID` and the
global `hModule`. -/
structure MonitorState where
  prevProcessID : DWORD
  hModule : Nat
  deriving DecidableEq, Repr

/-- Index one past the last backslash of the path, when there is one
(`find_last_of` plus one). -/
def afterLastBackslash : List Char → Option Nat
  | [] => none
  | c :: cs =>
    match afterLastBackslash cs with
    | some i => some (i + 1)
    | none => if c = Char.ofNat 92 then some 1 else none

/-- The module path `MonitorProcess` computes from the path of its own
executable. -/
def dllPathOf (exePath : String) : String :=
  let cs := exePath.toList
  let exeDir :=
    match afterLastBackslash cs with
    | some i => cs.take (i - 1)
    | none => cs
  String.mk exeDir ++ String.mk [Char.ofNat 92] ++ "OlkWindowHook.dll"

/-- One iteration of the `while (appRunning)` loop of `MonitorProcess`. -/
def MonitorProcess.body (os : MonitorOS) (dllPath : String) (st : MonitorState) :
    MonitorState × List MonitorAction :=
  let processID := FindProcessId os.snapshot "olk.exe"
  let r : MonitorState × List MonitorAction :=
    if processID ≠ 0 ∧ processID ≠ st.prevProcessID then
      let inj := [MonitorAction.InjectDLL processID dllPath (InjectDLL os.inject processID dllPath)]
      let hModule := if st.hModule = 0 then os.LoadLibrary dllPath else st.hModule
      let load := if st.hModule = 0 then [MonitorAction.LoadLibrary dllPath] else []
      let hook :=
        if hModule ≠ 0 then
          if os.GetProcAddress hModule "SetHook" then [MonitorAction.SetHook]
          else [MonitorAction.MessageBox "Failed to find SetHook function" caption MB_ICONERROR]
        else [MonitorAction.MessageBox "Failed to load OlkWindowHook.dll" caption MB_ICONERROR]
      ({ prevProcessID := processID, hModule := hModule }, inj ++ load ++ hook)
    else (st, [])
  let st2 := if processID = 0 then { r.1 with prevProcessID := 0 } else r.1
  (st2, r.2 ++ [MonitorAction.Sleep 500])

/-- The loop of `MonitorProcess` over the iterations made while `appRunning`
holds: the final variables and the actions of each iteration. -/
def MonitorProcess.loop (dllPath : String) :
    List MonitorOS → MonitorState → MonitorState × List (List MonitorAction)
  | [], st => (st, [])
  | os :: rest, st =>
    let r := MonitorProcess.body os dllPath st
    let r' := MonitorProcess.loop dllPath rest r.1
    (r'.1, r.2 :: r'.2)

/-- The function `MonitorProcess()`: the actions of each iteration, then those made after
the loop. `exePath` is what `GetModuleFileName` gives, `hModule` the global at
entry, `scans` the answers during the iterations, `atExit` whether
`GetProcAddress` finds `RemoveHook`. -/
def MonitorProcess (exePath : String) (hModule : Nat) (scans : List MonitorOS)
    (atExit : Nat → String → Bool) : List (List MonitorAction) × List MonitorAction :=
  let dllPath := dllPathOf exePath
  let r := MonitorProcess.loop dllPath scans { prevProcessID := 0, hModule := hModule }
  let fin :=
    if r.1.hModule ≠ 0 then
      (if atExit r.1.hModule "RemoveHook" then [MonitorAction.RemoveHook] else []) ++
        [MonitorAction.FreeLibrary r.1.hModule]
    else []
  (r.2, fin)

/-- The process identifiers `InjectDLL` is invoked with among some actions. -/
def injections : List MonitorAction → List DWORD
  | [] => []
  | MonitorAction.InjectDLL processID _ _ :: rest => processID :: injections rest
  | _ :: rest => injections rest

/-- The result of the scan of iteration `i` (counted from 0); `0` when there
is no such iteration. -/
def scanResult (scans : List MonitorOS) (i : Nat) : DWORD :=
  match scans.get? i with
  | some os => FindProcessId os.snapshot "olk.exe"
  | none => 0

/-! ## Notions used in the statements, and concrete inputs -/

/-- Two names are equal when case is ignored. -/
def sameIgnoringCase (a b : String) : Prop :=
  a.toList.map towlower = b.toList.map towlower

/-- The call is `ShowWindow` or `SetWindowSubclass`: it hides a window or
installs the override. -/
def OSCall.hidesOrOverrides : OSCall → Bool
  | OSCall.ShowWindow _ _ => true
  | OSCall.SetWindowSubclass _ _ _ => true
  | _ => false

/-- The call is `CallNextHookEx`. -/
def OSCall.isCallNextHookEx : OSCall → Bool
  | OSCall.CallNextHookEx _ _ _ _ _ => true
  | _ => false

/-- The call is `DefSubclassProc` with `WM_CLOSE` for window `A`. -/
def OSCall.isDefaultCloseOf (A : HWND) : OSCall → Bool
  | OSCall.DefSubclassProc hwnd uMsg _ _ => decide (hwnd = A) && decide (uMsg = WM_CLOSE)
  | _ => false

/-- An operating system in which every window belongs to process `p`, whose
executable is called `name`; handle `5` stands for the opened process, the
default handler answers `1`, the next hook `2`, and installing the hook
gives handle `hook`. -/
def sampleOS (p : DWORD) (name : String) (hook : HHOOK) : OS :=
  { GetWindowThreadProcessId := fun _ => p
    OpenProcess := fun _ => 5
    GetModuleBaseName := fun _ => some name
    DefSubclassProc := fun _ _ _ _ => 1
    CallNextHookEx := fun _ _ _ _ _ => 2
    SetWindowsHookEx := hook
    GetLastError := 1404 }

/-- The event is an invocation of the hook that can arm the suppression
flag of window `w`: a `WM_CLOSE` for `w` delivered for processing. -/
def Event.mayArm (w : HWND) : Event → Prop
  | Event.hook _ nCode _ pCwp => pCwp.hwnd = w ∧ pCwp.message = WM_CLOSE ∧ 0 ≤ nCode
  | Event.override _ _ _ _ _ => False

/-- Globals of a module whose hook is active, with window 7 registered as
the main window of process 100. -/
def sampleGlobals : Globals :=
  { hHookCallWndProc := 9, ignoreCloseMessage := [], firstOlkWindowMap := [(100, 7)],
    hookSet := true }

/-- A history of window 7: a close attempt, with a close of window 8 seen by
the hook before the override of window 7 runs, and a second close
attempt. -/
def sampleHistory : List Step :=
  [Step.hookA (sampleOS 100 "OLK.EXE" 9) 0 0 0 0,
   Step.other (Event.hook (sampleOS 100 "OLK.EXE" 9) 0 0
     { lParam := 0, wParam := 0, message := WM_CLOSE, hwnd := 8 }),
   Step.overrideA (sampleOS 100 "OLK.EXE" 9) 0 0,
   Step.hookA (sampleOS 100 "OLK.EXE" 9) 0 0 0 0,
   Step.overrideA (sampleOS 100 "OLK.EXE" 9) 0 0]

/-- The call acts on the opened target process as a step of the injection:
allocation, write, thread creation, or the wait for the thread. -/
def OSCall.remoteStep : OSCall → Bool
  | OSCall.VirtualAllocEx _ _ => true
  | OSCall.WriteProcessMemory _ _ _ _ => true
  | OSCall.CreateRemoteThread _ _ => true
  | OSCall.WaitForSingleObject _ => true
  | _ => false

/-- The texts of the message boxes among some calls: what is reported to the
operator. -/
def reports : List OSCall → List String
  | [] => []
  | OSCall.MessageBox text _ _ :: rest => text :: reports rest
  | _ :: rest => reports rest

/-- An operating system for `InjectDLL`: opening gives handle `hProcess`,
allocation gives address `addr`, writing answers `written`, thread creation
gives handle `hThread`. -/
def sampleInjectOS (hProcess : HANDLE) (addr : Nat) (written : Bool) (hThread : HANDLE) :
    InjectOS :=
  { OpenProcess := fun _ => hProcess
    VirtualAllocEx := fun _ _ => addr
    WriteProcessMemory := fun _ _ _ _ => written
    CreateRemoteThread := fun _ _ => hThread }

/-- The result of the scan before iteration `i`; `0` before the first one, as
`prevProcessID` is initialised. -/
def previousScan (scans : List MonitorOS) : Nat → DWORD
  | 0 => 0
  | i + 1 => scanResult scans i

/-- A scan that finds `olk.exe` running as process `pid`, or not at all when
`pid` is 0. -/
def sampleScan (pid : DWORD) : MonitorOS :=
  { snapshot :=
      some ([{ th32ProcessID := 4, szExeFile := "System" }] ++
        if pid = 0 then [] else [{ th32ProcessID := pid, szExeFile := "olk.exe" }])
    inject := sampleInjectOS 5 4096 true 6
    LoadLibrary := fun _ => 11
    GetProcAddress := fun _ _ => true }

/-- A schedule of the two threads: thread `false` enters first, thread `true`
takes the mutex first, thread `false` waits once and runs after thread `true`
has returned. -/
def sampleSchedule : List Bool :=
  [false, true, true, false, true, true, true, false, false, false, false]

/-! ## Lemmas on `std::unordered_map` -/

theorem UMap.find_assign_same {β : Type} (m : UMap β) (k : Nat) (v : β) :
    UMap.find (UMap.assign m k v) k = some v := by
  induction m with
  | nil => simp [UMap.assign, UMap.find]
  | cons hd t ih =>
    obtain ⟨k', v'⟩ := hd
    by_cases h : k' = k
    · simp [UMap.assign, UMap.find, h]
    · simp [UMap.assign, UMap.find, h, ih]

theorem UMap.find_assign_ne {β : Type} (m : UMap β) (k j : Nat) (v : β) (hne : j ≠ k) :
    UMap.find (UMap.assign m k v) j = UMap.find m j := by
  induction m with
  | nil =>
    have h : ¬ k = j := fun e => hne e.symm
    simp [UMap.assign, UMap.find, h]
  | cons hd t ih =>
    obtain ⟨k', v'⟩ := hd
    by_cases h : k' = k
    · have h2 : ¬ k = j := fun e => hne e.symm
      subst h
      simp [UMap.assign, UMap.find, h2]
    · by_cases h3 : k' = j
      · subst h3
        simp [UMap.assign, UMap.find, h]
      · simp [UMap.assign, UMap.find, h, h3, ih]

theorem UMap.index_of_find {β : Type} (m : UMap β) (k : Nat) (d v : β)
    (h : UMap.find m k = some v) : UMap.index m k d = (v, m) := by
  simp [UMap.index, h]

theorem UMap.index_of_not_find {β : Type} (m : UMap β) (k : Nat) (d : β)
    (h : UMap.find m k = none) : UMap.index m k d = (d, UMap.assign m k d) := by
  simp [UMap.index, h]

theorem UMap.find_index_ne {β : Type} (m : UMap β) (k j : Nat) (d : β) (hne : j ≠ k) :
    UMap.find (UMap.index m k d).2 j = UMap.find m j := by
  cases h : UMap.find m k with
  | none => rw [UMap.index_of_not_find m k d h]; exact UMap.find_assign_ne m k j d hne
  | some v => rw [UMap.index_of_find m k d v h]

/-! ## The registry: `IsFirstOlkExeWindow` -/

theorem IsFirstOlkExeWindow_absent (os : OS) (hwnd : HWND) (g : Globals)
    (h : g.firstOlkWindowMap.find (os.GetWindowThreadProcessId hwnd) = none) :
    IsFirstOlkExeWindow os hwnd g =
      (true, { g with firstOlkWindowMap :=
        g.firstOlkWindowMap.assign (os.GetWindowThreadProcessId hwnd) hwnd }) := by
  simp [IsFirstOlkExeWindow, h]

theorem IsFirstOlkExeWindow_present (os : OS) (hwnd m : HWND) (g : Globals)
    (h : g.firstOlkWindowMap.find (os.GetWindowThreadProcessId hwnd) = some m) :
    IsFirstOlkExeWindow os hwnd g = (decide (m = hwnd), g) := by
  simp [IsFirstOlkExeWindow, h, UMap.index_of_find _ _ 0 m h]

/-- A call of `IsFirstOlkExeWindow` never changes an entry that exists. -/
theorem IsFirstOlkExeWindow_keeps (os : OS) (hwnd : HWND) (g : Globals) (p : DWORD) (m : HWND)
    (h : g.firstOlkWindowMap.find p = some m) :
    (IsFirstOlkExeWindow os hwnd g).2.firstOlkWindowMap.find p = some m := by
  cases hq : g.firstOlkWindowMap.find (os.GetWindowThreadProcessId hwnd) with
  | none =>
    rw [IsFirstOlkExeWindow_absent os hwnd g hq]
    have hne : p ≠ os.GetWindowThreadProcessId hwnd := by
      intro e
      rw [e, hq] at h
      exact Option.noConfusion h
    simpa [UMap.find_assign_ne _ _ _ _ hne] using h
  | some m' =>
    rw [IsFirstOlkExeWindow_present os hwnd m' g hq]
    exact h

theorem runIsFirst_keeps (calls : List (OS × HWND)) (g : Globals) (p : DWORD) (m : HWND)
    (h : g.firstOlkWindowMap.find p = some m) :
    (runIsFirst calls g).firstOlkWindowMap.find p = some m := by
  induction calls generalizing g with
  | nil => exact h
  | cons c cs ih =>
    obtain ⟨os, hwnd⟩ := c
    exact ih _ (IsFirstOlkExeWindow_keeps os hwnd g p m h)

/-- C1: when process `p` has no registry entry, `IsFirstOlkExeWindow` on a
window `w1` of `p` returns true and records `p -> w1`; after any further
sequence of `IsFirstOlkExeWindow` calls (any windows, any owners) the entry
of `p` is still `w1`, and a call on a window `w` of `p` returns true exactly
when `w = w1`. -/
theorem C1_first_window_is_kept (os : OS) (p : DWORD) (w1 : HWND) (g : Globals)
    (hp : os.GetWindowThreadProcessId w1 = p)
    (habsent : g.firstOlkWindowMap.find p = none) :
    (IsFirstOlkExeWindow os w1 g).1 = true ∧
    (IsFirstOlkExeWindow os w1 g).2.firstOlkWindowMap.find p = some w1 ∧
    ∀ calls : List (OS × HWND),
      (runIsFirst calls (IsFirstOlkExeWindow os w1 g).2).firstOlkWindowMap.find p = some w1 ∧
      ∀ (os' : OS) (w : HWND), os'.GetWindowThreadProcessId w = p →
        ((IsFirstOlkExeWindow os' w (runIsFirst calls (IsFirstOlkExeWindow os w1 g).2)).1 = true
          ↔ w = w1) := by
  have h0 : g.firstOlkWindowMap.find (os.GetWindowThreadProcessId w1) = none := by
    rw [hp]; exact habsent
  have h1 : (IsFirstOlkExeWindow os w1 g).2.firstOlkWindowMap.find p = some w1 := by
    rw [IsFirstOlkExeWindow_absent os w1 g h0, hp]
    exact UMap.find_assign_same _ _ _
  refine ⟨by rw [IsFirstOlkExeWindow_absent os w1 g h0], h1, ?_⟩
  intro calls
  have h2 := runIsFirst_keeps calls _ p w1 h1
  refine ⟨h2, ?_⟩
  intro os' w hw
  have h3 : (runIsFirst calls (IsFirstOlkExeWindow os w1 g).2).firstOlkWindowMap.find
      (os'.GetWindowThreadProcessId w) = some w1 := by rw [hw]; exact h2
  rw [IsFirstOlkExeWindow_present os' w w1 _ h3]
  simp [eq_comm]

/-- C1 at a concrete input: process 100, window 7, empty registry. -/
theorem C1_first_window_is_kept_witness :
    (sampleOS 100 "olk.exe" 9).GetWindowThreadProcessId 7 = 100 ∧
    Globals.initial.firstOlkWindowMap.find 100 = none ∧
    (IsFirstOlkExeWindow (sampleOS 100 "olk.exe" 9) 7 Globals.initial).1 = true ∧
    (IsFirstOlkExeWindow (sampleOS 100 "olk.exe" 9) 7 Globals.initial).2.firstOlkWindowMap.find 100
      = some 7 :=
  ⟨rfl, rfl,
    (C1_first_window_is_kept (sampleOS 100 "olk.exe" 9) 100 7 Globals.initial rfl rfl).1,
    (C1_first_window_is_kept (sampleOS 100 "olk.exe" 9) 100 7 Globals.initial rfl rfl).2.1⟩

/-! ## The override: `SubclassProc` -/

theorem SubclassProc_armed (os : OS) (w : HWND) (wParam : WPARAM) (lParam : LPARAM) (g : Globals)
    (h : g.ignoreCloseMessage.find w = some true) :
    SubclassProc os w WM_CLOSE wParam lParam g =
      (0, { g with ignoreCloseMessage := g.ignoreCloseMessage.assign w false }, []) := by
  simp [SubclassProc, UMap.index_of_find _ _ false true h]

theorem SubclassProc_disarmed (os : OS) (w : HWND) (wParam : WPARAM) (lParam : LPARAM)
    (g : Globals) (h : g.ignoreCloseMessage.find w = some false) :
    SubclassProc os w WM_CLOSE wParam lParam g =
      (os.DefSubclassProc w WM_CLOSE wParam lParam, g,
        [OSCall.DefSubclassProc w WM_CLOSE wParam lParam]) := by
  simp [SubclassProc, UMap.index_of_find _ _ false false h]

theorem SubclassProc_other_message (os : OS) (w : HWND) (uMsg : UINT) (wParam : WPARAM)
    (lParam : LPARAM) (g : Globals) (h : uMsg ≠ WM_CLOSE) :
    SubclassProc os w uMsg wParam lParam g =
      (os.DefSubclassProc w uMsg wParam lParam, g,
        [OSCall.DefSubclassProc w uMsg wParam lParam]) := by
  simp [SubclassProc, h]

/-- The override touches neither the registry nor the hook state. -/
theorem SubclassProc_registry (os : OS) (w : HWND) (uMsg : UINT) (wParam : WPARAM)
    (lParam : LPARAM) (g : Globals) :
    (SubclassProc os w uMsg wParam lParam g).2.1.firstOlkWindowMap = g.firstOlkWindowMap := by
  simp only [SubclassProc]
  split_ifs <;> rfl

/-- The override of a window leaves the flags of other windows alone. -/
theorem SubclassProc_flag_frame (os : OS) (w A : HWND) (uMsg : UINT) (wParam : WPARAM)
    (lParam : LPARAM) (g : Globals) (hne : w ≠ A) :
    (SubclassProc os w uMsg wParam lParam g).2.1.ignoreCloseMessage.find A =
      g.ignoreCloseMessage.find A := by
  have hne' : A ≠ w := fun e => hne e.symm
  simp only [SubclassProc]
  split_ifs
  · simp only [UMap.find_assign_ne _ _ _ _ hne', UMap.find_index_ne _ _ _ _ hne']
  · simp only [UMap.find_index_ne _ _ _ _ hne']
  · rfl

/-- The override of a window whose flag is false leaves the flag false. -/
theorem SubclassProc_flag_false (os : OS) (w : HWND) (uMsg : UINT) (wParam : WPARAM)
    (lParam : LPARAM) (g : Globals) (h : g.ignoreCloseMessage.find w = some false) :
    (SubclassProc os w uMsg wParam lParam g).2.1.ignoreCloseMessage.find w = some false := by
  by_cases hm : uMsg = WM_CLOSE
  · subst hm
    rw [SubclassProc_disarmed os w wParam lParam g h]
    exact h
  · rw [SubclassProc_other_message os w uMsg wParam lParam g hm]
    exact h

/-- C4: for a message that is not `WM_CLOSE`, `SubclassProc` returns the
value of `DefSubclassProc` for the same window, message and parameters,
calls it once and nothing else, and leaves all globals (registry and
suppression table among them) unchanged. -/
theorem C4_other_messages_transparent (os : OS) (hwnd : HWND) (uMsg : UINT) (wParam : WPARAM)
    (lParam : LPARAM) (g : Globals) (hmsg : uMsg ≠ WM_CLOSE) :
    (SubclassProc os hwnd uMsg wParam lParam g).1 = os.DefSubclassProc hwnd uMsg wParam lParam ∧
    (SubclassProc os hwnd uMsg wParam lParam g).2.2 =
      [OSCall.DefSubclassProc hwnd uMsg wParam lParam] ∧
    (SubclassProc os hwnd uMsg wParam lParam g).2.1 = g := by
  rw [SubclassProc_other_message os hwnd uMsg wParam lParam g hmsg]
  exact ⟨rfl, rfl, rfl⟩

/-- C4 at a concrete input: message 15 (`WM_PAINT`) on window 7 with an armed
flag and a registry entry. -/
theorem C4_other_messages_transparent_witness :
    (15 : UINT) ≠ WM_CLOSE ∧
    (SubclassProc (sampleOS 100 "olk.exe" 9) 7 15 0 0
      { hHookCallWndProc := 9, ignoreCloseMessage := [(7, true)],
        firstOlkWindowMap := [(100, 7)], hookSet := true }).2.1 =
      { hHookCallWndProc := 9, ignoreCloseMessage := [(7, true)],
        firstOlkWindowMap := [(100, 7)], hookSet := true } :=
  ⟨by decide,
    (C4_other_messages_transparent (sampleOS 100 "olk.exe" 9) 7 15 0 0
      { hHookCallWndProc := 9, ignoreCloseMessage := [(7, true)],
        firstOlkWindowMap := [(100, 7)], hookSet := true } (by decide)).2.2⟩

/-! ## The hook: `CallWndProc` -/

theorem IsFirstOlkExeWindow_flags (os : OS) (hwnd : HWND) (g : Globals) :
    (IsFirstOlkExeWindow os hwnd g).2.ignoreCloseMessage = g.ignoreCloseMessage := by
  simp only [IsFirstOlkExeWindow]
  split_ifs <;> rfl

/-- The hook intercepts: what it returns, leaves and calls. -/
theorem CallWndProc_intercept (os : OS) (nCode : Int) (wParam : WPARAM) (pCwp : CWPSTRUCT)
    (g : Globals) (hcode : 0 ≤ nCode) (hmsg : pCwp.message = WM_CLOSE)
    (hq : (IsOlkExeProcess os pCwp.hwnd).1 = true)
    (hf : (IsFirstOlkExeWindow os pCwp.hwnd g).1 = true) :
    CallWndProc os nCode wParam pCwp g =
      (0,
        { (IsFirstOlkExeWindow os pCwp.hwnd g).2 with
          ignoreCloseMessage :=
            (IsFirstOlkExeWindow os pCwp.hwnd g).2.ignoreCloseMessage.assign pCwp.hwnd true },
        (IsOlkExeProcess os pCwp.hwnd).2 ++
          (if (IsFirstOlkExeWindow os pCwp.hwnd g).2.ignoreCloseMessage.count pCwp.hwnd = 0 then
            [OSCall.SetWindowSubclass pCwp.hwnd 1 0] else []) ++
          [OSCall.ShowWindow pCwp.hwnd SW_HIDE]) := by
  simp [CallWndProc, hcode, hmsg, hq, hf]

theorem IsFirstOlkExeWindow_hook (os : OS) (hwnd : HWND) (g : Globals) :
    (IsFirstOlkExeWindow os hwnd g).2.hHookCallWndProc = g.hHookCallWndProc := by
  simp only [IsFirstOlkExeWindow]
  split_ifs <;> rfl

/-- The hook is not asked to process, or the message is not `WM_CLOSE`. -/
theorem CallWndProc_pass_early (os : OS) (nCode : Int) (wParam : WPARAM) (pCwp : CWPSTRUCT)
    (g : Globals) (h : ¬ (0 ≤ nCode ∧ pCwp.message = WM_CLOSE)) :
    CallWndProc os nCode wParam pCwp g =
      (os.CallNextHookEx g.hHookCallWndProc nCode wParam pCwp.hwnd pCwp.message, g,
        [OSCall.CallNextHookEx g.hHookCallWndProc nCode wParam pCwp.hwnd pCwp.message]) := by
  by_cases h1 : 0 ≤ nCode
  · have h2 : ¬ pCwp.message = WM_CLOSE := fun h2 => h ⟨h1, h2⟩
    simp [CallWndProc, h1, h2]
  · simp [CallWndProc, h1]

/-- The window does not belong to `olk.exe`. -/
theorem CallWndProc_pass_unqualified (os : OS) (nCode : Int) (wParam : WPARAM)
    (pCwp : CWPSTRUCT) (g : Globals) (hq : (IsOlkExeProcess os pCwp.hwnd).1 = false) :
    CallWndProc os nCode wParam pCwp g =
      (os.CallNextHookEx g.hHookCallWndProc nCode wParam pCwp.hwnd pCwp.message, g,
        (if 0 ≤ nCode ∧ pCwp.message = WM_CLOSE then (IsOlkExeProcess os pCwp.hwnd).2 else []) ++
          [OSCall.CallNextHookEx g.hHookCallWndProc nCode wParam pCwp.hwnd pCwp.message]) := by
  by_cases h1 : 0 ≤ nCode
  · by_cases h2 : pCwp.message = WM_CLOSE
    · simp [CallWndProc, h1, h2, hq]
    · simp [CallWndProc, h1, h2]
  · simp [CallWndProc, h1]

/-- The window is not the one registered for its process. -/
theorem CallWndProc_pass_not_first (os : OS) (nCode : Int) (wParam : WPARAM) (pCwp : CWPSTRUCT)
    (g : Globals) (hf : (IsFirstOlkExeWindow os pCwp.hwnd g).1 = false) :
    (CallWndProc os nCode wParam pCwp g).1 =
      os.CallNextHookEx g.hHookCallWndProc nCode wParam pCwp.hwnd pCwp.message ∧
    ((CallWndProc os nCode wParam pCwp g).2.1 = g ∨
      (CallWndProc os nCode wParam pCwp g).2.1 = (IsFirstOlkExeWindow os pCwp.hwnd g).2) ∧
    (CallWndProc os nCode wParam pCwp g).2.2 =
      (if 0 ≤ nCode ∧ pCwp.message = WM_CLOSE then (IsOlkExeProcess os pCwp.hwnd).2 else []) ++
        [OSCall.CallNextHookEx g.hHookCallWndProc nCode wParam pCwp.hwnd pCwp.message] := by
  cases hq : (IsOlkExeProcess os pCwp.hwnd).1 with
  | false =>
    rw [CallWndProc_pass_unqualified os nCode wParam pCwp g hq]
    exact ⟨rfl, Or.inl rfl, rfl⟩
  | true =>
    by_cases h1 : 0 ≤ nCode
    · by_cases h2 : pCwp.message = WM_CLOSE
      · simp [CallWndProc, h1, h2, hq, hf, IsFirstOlkExeWindow_hook]
      · simp [CallWndProc, h1, h2]
    · simp [CallWndProc, h1]

/-- The hook does not intercept: the globals can differ from those before
only by the registry lookup. -/
theorem CallWndProc_pass (os : OS) (nCode : Int) (wParam : WPARAM) (pCwp : CWPSTRUCT)
    (g : Globals)
    (h : ¬ (0 ≤ nCode ∧ pCwp.message = WM_CLOSE ∧ (IsOlkExeProcess os pCwp.hwnd).1 = true ∧
      (IsFirstOlkExeWindow os pCwp.hwnd g).1 = true)) :
    (CallWndProc os nCode wParam pCwp g).2.1 = g ∨
      (CallWndProc os nCode wParam pCwp g).2.1 = (IsFirstOlkExeWindow os pCwp.hwnd g).2 := by
  by_cases h12 : 0 ≤ nCode ∧ pCwp.message = WM_CLOSE
  · cases hq : (IsOlkExeProcess os pCwp.hwnd).1 with
    | false =>
      rw [CallWndProc_pass_unqualified os nCode wParam pCwp g hq]
      exact Or.inl rfl
    | true =>
      cases hf : (IsFirstOlkExeWindow os pCwp.hwnd g).1 with
      | false => exact (CallWndProc_pass_not_first os nCode wParam pCwp g hf).2.1
      | true => exact absurd ⟨h12.1, h12.2, hq, hf⟩ h
  · rw [CallWndProc_pass_early os nCode wParam pCwp g h12]
    exact Or.inl rfl

/-- The hook never changes a registry entry that exists. -/
theorem CallWndProc_keeps (os : OS) (nCode : Int) (wParam : WPARAM) (pCwp : CWPSTRUCT)
    (g : Globals) (p : DWORD) (m : HWND) (h : g.firstOlkWindowMap.find p = some m) :
    (CallWndProc os nCode wParam pCwp g).2.1.firstOlkWindowMap.find p = some m := by
  by_cases hc : 0 ≤ nCode ∧ pCwp.message = WM_CLOSE ∧ (IsOlkExeProcess os pCwp.hwnd).1 = true ∧
      (IsFirstOlkExeWindow os pCwp.hwnd g).1 = true
  · rw [CallWndProc_intercept os nCode wParam pCwp g hc.1 hc.2.1 hc.2.2.1 hc.2.2.2]
    exact IsFirstOlkExeWindow_keeps os pCwp.hwnd g p m h
  · rcases CallWndProc_pass os nCode wParam pCwp g hc with e | e
    · rw [e]; exact h
    · rw [e]; exact IsFirstOlkExeWindow_keeps os pCwp.hwnd g p m h

/-- The hook changes the flag of window `A` only when it processes a
`WM_CLOSE` for `A`. -/
theorem CallWndProc_flag_frame (os : OS) (nCode : Int) (wParam : WPARAM) (pCwp : CWPSTRUCT)
    (g : Globals) (A : HWND) (h : ¬ (pCwp.hwnd = A ∧ pCwp.message = WM_CLOSE ∧ 0 ≤ nCode)) :
    (CallWndProc os nCode wParam pCwp g).2.1.ignoreCloseMessage.find A =
      g.ignoreCloseMessage.find A := by
  by_cases hc : 0 ≤ nCode ∧ pCwp.message = WM_CLOSE ∧ (IsOlkExeProcess os pCwp.hwnd).1 = true ∧
      (IsFirstOlkExeWindow os pCwp.hwnd g).1 = true
  · rw [CallWndProc_intercept os nCode wParam pCwp g hc.1 hc.2.1 hc.2.2.1 hc.2.2.2]
    have hne : A ≠ pCwp.hwnd := fun e => h ⟨e.symm, hc.2.1, hc.1⟩
    simp only [UMap.find_assign_ne _ _ _ _ hne, IsFirstOlkExeWindow_flags]
  · rcases CallWndProc_pass os nCode wParam pCwp g hc with e | e
    · rw [e]
    · rw [e, IsFirstOlkExeWindow_flags]

/-- An event that cannot arm the flag of `w` leaves a false flag false. -/
theorem Event.run_flag_false (e : Event) (w : HWND) (g : Globals) (hno : ¬ e.mayArm w)
    (h : g.ignoreCloseMessage.find w = some false) :
    (e.run g).1.ignoreCloseMessage.find w = some false := by
  cases e with
  | hook os nCode wParam pCwp =>
    simp only [Event.run]
    rw [CallWndProc_flag_frame os nCode wParam pCwp g w hno]
    exact h
  | override os hwnd uMsg wParam lParam =>
    simp only [Event.run]
    by_cases hw : hwnd = w
    · subst hw
      exact SubclassProc_flag_false os hwnd uMsg wParam lParam g h
    · rw [SubclassProc_flag_frame os hwnd w uMsg wParam lParam g hw]
      exact h

theorem runEvents_flag_false (es : List Event) (w : HWND) (g : Globals)
    (hno : ∀ e ∈ es, ¬ e.mayArm w) (h : g.ignoreCloseMessage.find w = some false) :
    (runEvents es g).1.ignoreCloseMessage.find w = some false := by
  induction es generalizing g with
  | nil => exact h
  | cons e es ih =>
    simp only [runEvents]
    exact ih _ (fun e' he' => hno e' (List.mem_cons_of_mem _ he'))
      (Event.run_flag_false e w g (hno e (List.mem_cons_self _ _)) h)

/-- C2: when the suppression flag of window `w` is true, the next `WM_CLOSE`
that `SubclassProc` handles for `w` returns 0, makes no call (the default
handler is not called) and leaves the flag false; after any events that do not
re-arm the flag (no `WM_CLOSE` for `w` processed by the hook), a further
`WM_CLOSE` for `w` is handed to `DefSubclassProc`, whose value is returned,
and the flag stays false. -/
theorem C2_one_shot_suppression (os os2 : OS) (w : HWND) (wParam wParam2 : WPARAM)
    (lParam lParam2 : LPARAM) (g : Globals) (mid : List Event)
    (harmed : g.ignoreCloseMessage.find w = some true)
    (hmid : ∀ e ∈ mid, ¬ e.mayArm w) :
    (SubclassProc os w WM_CLOSE wParam lParam g).1 = 0 ∧
    (SubclassProc os w WM_CLOSE wParam lParam g).2.2 = [] ∧
    (SubclassProc os w WM_CLOSE wParam lParam g).2.1.ignoreCloseMessage.find w = some false ∧
    (SubclassProc os2 w WM_CLOSE wParam2 lParam2
        (runEvents mid (SubclassProc os w WM_CLOSE wParam lParam g).2.1).1).1 =
      os2.DefSubclassProc w WM_CLOSE wParam2 lParam2 ∧
    (SubclassProc os2 w WM_CLOSE wParam2 lParam2
        (runEvents mid (SubclassProc os w WM_CLOSE wParam lParam g).2.1).1).2.2 =
      [OSCall.DefSubclassProc w WM_CLOSE wParam2 lParam2] ∧
    (SubclassProc os2 w WM_CLOSE wParam2 lParam2
        (runEvents mid (SubclassProc os w WM_CLOSE wParam lParam g).2.1).1).2.1.ignoreCloseMessage.find
      w = some false := by
  have h1 : (SubclassProc os w WM_CLOSE wParam lParam g).2.1.ignoreCloseMessage.find w
      = some false := by
    rw [SubclassProc_armed os w wParam lParam g harmed]
    exact UMap.find_assign_same _ _ _
  have h2 := runEvents_flag_false mid w _ hmid h1
  refine ⟨?_, ?_, h1, ?_, ?_, ?_⟩
  · rw [SubclassProc_armed os w wParam lParam g harmed]
  · rw [SubclassProc_armed os w wParam lParam g harmed]
  · rw [SubclassProc_disarmed os2 w wParam2 lParam2 _ h2]
  · rw [SubclassProc_disarmed os2 w wParam2 lParam2 _ h2]
  · rw [SubclassProc_disarmed os2 w wParam2 lParam2 _ h2]
    exact h2

/-- C2 at a concrete input: window 7 with its flag armed, two `WM_CLOSE` in a
row. -/
theorem C2_one_shot_suppression_witness :
    UMap.find [(7, true)] 7 = some true ∧
    (SubclassProc (sampleOS 100 "olk.exe" 9) 7 WM_CLOSE 0 0
      { hHookCallWndProc := 9, ignoreCloseMessage := [(7, true)],
        firstOlkWindowMap := [(100, 7)], hookSet := true }).1 = 0 ∧
    (SubclassProc (sampleOS 100 "olk.exe" 9) 7 WM_CLOSE 0 0
        (runEvents [] (SubclassProc (sampleOS 100 "olk.exe" 9) 7 WM_CLOSE 0 0
          { hHookCallWndProc := 9, ignoreCloseMessage := [(7, true)],
            firstOlkWindowMap := [(100, 7)], hookSet := true }).2.1).1).2.2 =
      [OSCall.DefSubclassProc 7 WM_CLOSE 0 0] :=
  ⟨rfl,
    (C2_one_shot_suppression (sampleOS 100 "olk.exe" 9) (sampleOS 100 "olk.exe" 9) 7 0 0 0 0
      { hHookCallWndProc := 9, ignoreCloseMessage := [(7, true)],
        firstOlkWindowMap := [(100, 7)], hookSet := true } [] rfl
      (fun _ he => absurd he (List.not_mem_nil _))).1,
    (C2_one_shot_suppression (sampleOS 100 "olk.exe" 9) (sampleOS 100 "olk.exe" 9) 7 0 0 0 0
      { hHookCallWndProc := 9, ignoreCloseMessage := [(7, true)],
        firstOlkWindowMap := [(100, 7)], hookSet := true } [] rfl
      (fun _ he => absurd he (List.not_mem_nil _))).2.2.2.2.1⟩

/-! ## Qualification of a window: `IsOlkExeProcess` -/

theorem Char.eq_of_toNat_eq (a b : Char) (h : a.toNat = b.toNat) : a = b := by
  apply Char.ext
  apply UInt32.ext
  exact h

/-- The comparison gives 0 exactly for names equal up to case. -/
theorem tcsicmp_eq_zero_iff (a b : List Char) :
    tcsicmp a b = 0 ↔ a.map towlower = b.map towlower := by
  induction a generalizing b with
  | nil => cases b <;> simp [tcsicmp]
  | cons x xs ih =>
    cases b with
    | nil => simp [tcsicmp]
    | cons y ys =>
      simp only [tcsicmp, List.map_cons, List.cons.injEq]
      by_cases h1 : (towlower x).toNat < (towlower y).toNat
      · have hne : towlower x ≠ towlower y := by
          intro e
          rw [e] at h1
          exact Nat.lt_irrefl _ h1
        simp [h1, hne]
      · by_cases h2 : (towlower y).toNat < (towlower x).toNat
        · have hne : towlower x ≠ towlower y := by
            intro e
            rw [e] at h2
            exact Nat.lt_irrefl _ h2
          simp [h1, h2, hne]
        · have he : towlower x = towlower y :=
            Char.eq_of_toNat_eq _ _ (Nat.le_antisymm (Nat.le_of_not_lt h2) (Nat.le_of_not_lt h1))
          simp [h1, h2, he, ih]

/-- What `IsOlkExeProcess` answers, case by case. -/
theorem IsOlkExeProcess_cases (os : OS) (hwnd : HWND) :
    (os.OpenProcess (os.GetWindowThreadProcessId hwnd) = 0 →
      (IsOlkExeProcess os hwnd).1 = false) ∧
    (os.GetModuleBaseName (os.OpenProcess (os.GetWindowThreadProcessId hwnd)) = none →
      (IsOlkExeProcess os hwnd).1 = false) ∧
    (∀ name, os.GetModuleBaseName (os.OpenProcess (os.GetWindowThreadProcessId hwnd)) = some name →
      os.OpenProcess (os.GetWindowThreadProcessId hwnd) ≠ 0 →
      ((IsOlkExeProcess os hwnd).1 = true ↔ sameIgnoringCase name "olk.exe")) := by
  refine ⟨?_, ?_, ?_⟩
  · intro h
    simp [IsOlkExeProcess, h]
  · intro h
    by_cases h0 : os.OpenProcess (os.GetWindowThreadProcessId hwnd) = 0
    · simp [IsOlkExeProcess, h0]
    · simp [IsOlkExeProcess, h0, h]
  · intro name h h0
    simp [IsOlkExeProcess, h0, h, sameIgnoringCase, tcsicmp_eq_zero_iff]

/-- The calls of `IsOlkExeProcess` open and close a process handle only. -/
theorem IsOlkExeProcess_calls (os : OS) (hwnd : HWND) :
    ∀ c ∈ (IsOlkExeProcess os hwnd).2,
      c.hidesOrOverrides = false ∧ c.isCallNextHookEx = false ∧
        ∀ A, c.isDefaultCloseOf A = false := by
  intro c hc
  simp only [IsOlkExeProcess] at hc
  split_ifs at hc with h0
  · split at hc <;>
      · simp only [List.mem_cons, List.mem_singleton, List.not_mem_nil, or_false] at hc
        rcases hc with e | e <;> subst e <;>
          simp [OSCall.hidesOrOverrides, OSCall.isCallNextHookEx, OSCall.isDefaultCloseOf]
  · simp only [List.mem_singleton] at hc
    subst hc
    simp [OSCall.hidesOrOverrides, OSCall.isCallNextHookEx, OSCall.isDefaultCloseOf]

/-- C5: a `WM_CLOSE` seen by the hook on a window that does not qualify (its
process cannot be opened, the executable name cannot be read, or the name is
not `olk.exe` up to case), or whose process has another window registered as
its main window, is handed to `CallNextHookEx`, whose value is returned; no
call hides the window or installs the override, `CallNextHookEx` is the last
call and the only one of its kind, and all globals (registry and suppression
table among them) are as before. -/
theorem C5_non_qualifying_passthrough (os : OS) (nCode : Int) (wParam : WPARAM)
    (pCwp : CWPSTRUCT) (g : Globals) (hmsg : pCwp.message = WM_CLOSE)
    (h : os.OpenProcess (os.GetWindowThreadProcessId pCwp.hwnd) = 0 ∨
      os.GetModuleBaseName (os.OpenProcess (os.GetWindowThreadProcessId pCwp.hwnd)) = none ∨
      (∃ name,
        os.GetModuleBaseName (os.OpenProcess (os.GetWindowThreadProcessId pCwp.hwnd)) = some name ∧
        ¬ sameIgnoringCase name "olk.exe") ∨
      (∃ m, g.firstOlkWindowMap.find (os.GetWindowThreadProcessId pCwp.hwnd) = some m ∧
        m ≠ pCwp.hwnd)) :
    (CallWndProc os nCode wParam pCwp g).1 =
      os.CallNextHookEx g.hHookCallWndProc nCode wParam pCwp.hwnd WM_CLOSE ∧
    (CallWndProc os nCode wParam pCwp g).2.1 = g ∧
    (∀ c ∈ (CallWndProc os nCode wParam pCwp g).2.2, c.hidesOrOverrides = false) ∧
    ∃ tr, (CallWndProc os nCode wParam pCwp g).2.2 =
        tr ++ [OSCall.CallNextHookEx g.hHookCallWndProc nCode wParam pCwp.hwnd WM_CLOSE] ∧
      ∀ c ∈ tr, c.isCallNextHookEx = false := by
  have hcalls := IsOlkExeProcess_calls os pCwp.hwnd
  have key : (CallWndProc os nCode wParam pCwp g).1 =
        os.CallNextHookEx g.hHookCallWndProc nCode wParam pCwp.hwnd pCwp.message ∧
      (CallWndProc os nCode wParam pCwp g).2.1 = g ∧
      (CallWndProc os nCode wParam pCwp g).2.2 =
        (if 0 ≤ nCode ∧ pCwp.message = WM_CLOSE then (IsOlkExeProcess os pCwp.hwnd).2 else []) ++
          [OSCall.CallNextHookEx g.hHookCallWndProc nCode wParam pCwp.hwnd pCwp.message] := by
    cases hq : (IsOlkExeProcess os pCwp.hwnd).1 with
    | false =>
      rw [CallWndProc_pass_unqualified os nCode wParam pCwp g hq]
      exact ⟨rfl, rfl, rfl⟩
    | true =>
      obtain ⟨c1, c2, c3⟩ := IsOlkExeProcess_cases os pCwp.hwnd
      rcases h with h | h | ⟨name, h, hn⟩ | ⟨m, hm, hne⟩
      · rw [c1 h] at hq
        exact Bool.noConfusion hq
      · rw [c2 h] at hq
        exact Bool.noConfusion hq
      · by_cases h0 : os.OpenProcess (os.GetWindowThreadProcessId pCwp.hwnd) = 0
        · rw [c1 h0] at hq
          exact Bool.noConfusion hq
        · exact absurd ((c3 name h h0).1 hq) hn
      · have hf := IsFirstOlkExeWindow_present os pCwp.hwnd m g hm
        have hf1 : (IsFirstOlkExeWindow os pCwp.hwnd g).1 = false := by
          rw [hf]
          simp [hne]
        have hf2 : (IsFirstOlkExeWindow os pCwp.hwnd g).2 = g := by rw [hf]
        obtain ⟨k1, k2, k3⟩ := CallWndProc_pass_not_first os nCode wParam pCwp g hf1
        refine ⟨k1, ?_, k3⟩
        rcases k2 with e | e
        · exact e
        · rw [e, hf2]
  obtain ⟨k1, k2, k3⟩ := key
  rw [hmsg] at k1 k3
  have htr : ∀ c ∈ (if 0 ≤ nCode ∧ WM_CLOSE = WM_CLOSE then (IsOlkExeProcess os pCwp.hwnd).2
      else []), c.hidesOrOverrides = false ∧ c.isCallNextHookEx = false := by
    intro c hc
    split_ifs at hc
    · exact ⟨(hcalls c hc).1, (hcalls c hc).2.1⟩
    · exact absurd hc (List.not_mem_nil _)
  refine ⟨k1, k2, ?_, _, k3, fun c hc => (htr c hc).2⟩
  intro c hc
  rw [k3, List.mem_append] at hc
  rcases hc with hc | hc
  · exact (htr c hc).1
  · rw [List.mem_singleton] at hc
    subst hc
    rfl

/-- C5 at concrete inputs: a window of `notepad.exe`, and a second window of
an `olk.exe` process whose registered main window is window 7. -/
theorem C5_non_qualifying_passthrough_witness :
    (CallWndProc (sampleOS 200 "notepad.exe" 9) 0 0
      { lParam := 0, wParam := 0, message := WM_CLOSE, hwnd := 3 }
      { hHookCallWndProc := 9, ignoreCloseMessage := [], firstOlkWindowMap := [],
        hookSet := true }).2.1 =
      { hHookCallWndProc := 9, ignoreCloseMessage := [], firstOlkWindowMap := [],
        hookSet := true } ∧
    (CallWndProc (sampleOS 100 "olk.exe" 9) 0 0
      { lParam := 0, wParam := 0, message := WM_CLOSE, hwnd := 8 }
      { hHookCallWndProc := 9, ignoreCloseMessage := [(7, true)],
        firstOlkWindowMap := [(100, 7)], hookSet := true }).1 = 2 :=
  ⟨(C5_non_qualifying_passthrough (sampleOS 200 "notepad.exe" 9) 0 0
      { lParam := 0, wParam := 0, message := WM_CLOSE, hwnd := 3 }
      { hHookCallWndProc := 9, ignoreCloseMessage := [], firstOlkWindowMap := [],
        hookSet := true } rfl
      (Or.inr (Or.inr (Or.inl ⟨"notepad.exe", rfl, by unfold sameIgnoringCase; decide⟩)))).2.1,
    (C5_non_qualifying_passthrough (sampleOS 100 "olk.exe" 9) 0 0
      { lParam := 0, wParam := 0, message := WM_CLOSE, hwnd := 8 }
      { hHookCallWndProc := 9, ignoreCloseMessage := [(7, true)],
        firstOlkWindowMap := [(100, 7)], hookSet := true } rfl
      (Or.inr (Or.inr (Or.inr ⟨7, rfl, by decide⟩)))).1⟩

/-! ## Histories of the main window: hook and override together -/

theorem runEvents_append (es fs : List Event) (g : Globals) :
    runEvents (es ++ fs) g =
      ((runEvents fs (runEvents es g).1).1, (runEvents es g).2 ++ (runEvents fs (runEvents es g).1).2) := by
  induction es generalizing g with
  | nil => simp [runEvents]
  | cons e es ih => simp [runEvents, ih, List.append_assoc]

theorem historyEvents_append (A : HWND) (xs ys : List Step) :
    historyEvents A (xs ++ ys) = historyEvents A xs ++ historyEvents A ys := by
  simp [historyEvents]

theorem historyEvents_cons (A : HWND) (x : Step) (ys : List Step) :
    historyEvents A (x :: ys) = x.event A :: historyEvents A ys := by
  simp [historyEvents]

/-- No event changes a registry entry that exists. -/
theorem Event.run_keeps (e : Event) (g : Globals) (p : DWORD) (m : HWND)
    (h : g.firstOlkWindowMap.find p = some m) :
    (e.run g).1.firstOlkWindowMap.find p = some m := by
  cases e with
  | hook os nCode wParam pCwp => exact CallWndProc_keeps os nCode wParam pCwp g p m h
  | override os hwnd uMsg wParam lParam =>
    simp only [Event.run]
    rw [SubclassProc_registry]
    exact h

theorem runEvents_keeps (es : List Event) (g : Globals) (p : DWORD) (m : HWND)
    (h : g.firstOlkWindowMap.find p = some m) :
    (runEvents es g).1.firstOlkWindowMap.find p = some m := by
  induction es generalizing g with
  | nil => exact h
  | cons e es ih =>
    simp only [runEvents]
    exact ih _ (Event.run_keeps e g p m h)

/-- The hook never calls `DefSubclassProc`. -/
theorem CallWndProc_calls (os : OS) (nCode : Int) (wParam : WPARAM) (pCwp : CWPSTRUCT)
    (g : Globals) (A : HWND) :
    ∀ c ∈ (CallWndProc os nCode wParam pCwp g).2.2, c.isDefaultCloseOf A = false := by
  have hq := IsOlkExeProcess_calls os pCwp.hwnd
  intro c hc
  simp only [CallWndProc] at hc
  split_ifs at hc <;>
    simp only [List.mem_append, List.mem_singleton, List.not_mem_nil, List.nil_append,
      or_false, false_or] at hc
  all_goals
    first
    | (subst hc; rfl)
    | (rcases hc with hc | hc
       · first
         | exact (hq c hc).2.2 A
         | (rcases hc with hc | hc
            · exact (hq c hc).2.2 A
            · subst hc; rfl)
       · subst hc; rfl)

/-- The override of another window never hands a `WM_CLOSE` of `A` to the
default handler. -/
theorem SubclassProc_calls_other (os : OS) (hwnd A : HWND) (uMsg : UINT) (wParam : WPARAM)
    (lParam : LPARAM) (g : Globals) (hne : hwnd ≠ A) :
    ∀ c ∈ (SubclassProc os hwnd uMsg wParam lParam g).2.2, c.isDefaultCloseOf A = false := by
  intro c hc
  simp only [SubclassProc] at hc
  split_ifs at hc <;>
    simp only [List.mem_singleton, List.not_mem_nil] at hc
  all_goals
    subst hc
    simp [OSCall.isDefaultCloseOf, hne]

/-- A close attempt on the registered main window of a qualifying process. -/
theorem attempt_on_main_window (os : OS) (nCode : Int) (hookWParam wParam : WPARAM)
    (lParam : LPARAM) (p : DWORD) (A : HWND) (g : Globals)
    (hreg : g.firstOlkWindowMap.find p = some A) (hcode : 0 ≤ nCode)
    (hpid : os.GetWindowThreadProcessId A = p) (hq : (IsOlkExeProcess os A).1 = true) :
    (CallWndProc os nCode hookWParam
      { lParam := lParam, wParam := wParam, message := WM_CLOSE, hwnd := A } g).1 = 0 ∧
    OSCall.ShowWindow A SW_HIDE ∈ (CallWndProc os nCode hookWParam
      { lParam := lParam, wParam := wParam, message := WM_CLOSE, hwnd := A } g).2.2 ∧
    (∀ c ∈ (CallWndProc os nCode hookWParam
      { lParam := lParam, wParam := wParam, message := WM_CLOSE, hwnd := A } g).2.2,
        c.isCallNextHookEx = false) ∧
    (CallWndProc os nCode hookWParam
      { lParam := lParam, wParam := wParam, message := WM_CLOSE, hwnd := A }
        g).2.1.ignoreCloseMessage.find A = some true ∧
    (SubclassProc os A WM_CLOSE wParam lParam (CallWndProc os nCode hookWParam
      { lParam := lParam, wParam := wParam, message := WM_CLOSE, hwnd := A } g).2.1).1 = 0 ∧
    (SubclassProc os A WM_CLOSE wParam lParam (CallWndProc os nCode hookWParam
      { lParam := lParam, wParam := wParam, message := WM_CLOSE, hwnd := A } g).2.1).2.2 = [] := by
  have hreg' : g.firstOlkWindowMap.find (os.GetWindowThreadProcessId A) = some A := by
    rw [hpid]; exact hreg
  have hf := IsFirstOlkExeWindow_present os A A g hreg'
  have hf1 : (IsFirstOlkExeWindow os A g).1 = true := by rw [hf]; simp
  have hi := CallWndProc_intercept os nCode hookWParam
    { lParam := lParam, wParam := wParam, message := WM_CLOSE, hwnd := A } g hcode rfl hq hf1
  have hflag : (CallWndProc os nCode hookWParam
      { lParam := lParam, wParam := wParam, message := WM_CLOSE, hwnd := A }
        g).2.1.ignoreCloseMessage.find A = some true := by
    rw [hi]
    exact UMap.find_assign_same _ _ _
  have ho := SubclassProc_armed os A wParam lParam _ hflag
  refine ⟨by rw [hi], ?_, ?_, hflag, by rw [ho], by rw [ho]⟩
  · rw [hi]
    simp
  · intro c hc
    rw [hi] at hc
    simp only [List.mem_append, List.mem_singleton] at hc
    rcases hc with (hc | hc) | hc
    · exact (IsOlkExeProcess_calls os A c hc).2.1
    · split_ifs at hc
      · rw [List.mem_singleton] at hc
        subst hc; rfl
      · exact absurd hc (List.not_mem_nil _)
    · subst hc; rfl

/-- An event about another window leaves the flag of `A` as it is. -/
theorem Event.run_flag_other (e : Event) (A : HWND) (g : Globals) (hne : e.hwnd ≠ A) :
    (e.run g).1.ignoreCloseMessage.find A = g.ignoreCloseMessage.find A := by
  cases e with
  | hook os nCode wParam pCwp =>
    exact CallWndProc_flag_frame os nCode wParam pCwp g A (fun h => hne h.1)
  | override os hwnd uMsg wParam lParam =>
    exact SubclassProc_flag_frame os hwnd A uMsg wParam lParam g hne

/-- One step of an admissible history keeps the invariant, leaves an
admissible rest, and hands no `WM_CLOSE` of `A` to the default handler. -/
theorem Step.preserves (p : DWORD) (A : HWND) (pending : Bool) (st : Step) (rest : List Step)
    (g : Globals) (hinv : mainWindowInv p A pending g)
    (hadm : admissible p A pending (st :: rest)) :
    ∃ pending', admissible p A pending' rest ∧
      mainWindowInv p A pending' ((st.event A).run g).1 ∧
      ∀ c ∈ ((st.event A).run g).2, c.isDefaultCloseOf A = false := by
  obtain ⟨hreg, hflag⟩ := hinv
  cases st with
  | hookA os nCode hookWParam wParam lParam =>
    cases pending with
    | true => exact False.elim hadm
    | false =>
      obtain ⟨hcode, hpid, hq, hrest⟩ := hadm
      have hat := attempt_on_main_window os nCode hookWParam wParam lParam p A g hreg hcode
        hpid hq
      refine ⟨true, hrest, ⟨?_, fun _ => hat.2.2.2.1⟩, ?_⟩
      · exact CallWndProc_keeps os nCode hookWParam _ g p A hreg
      · exact CallWndProc_calls os nCode hookWParam _ g A
  | overrideA os wParam lParam =>
    cases pending with
    | false => exact False.elim hadm
    | true =>
      have ho := SubclassProc_armed os A wParam lParam g (hflag rfl)
      refine ⟨false, hadm, ⟨?_, fun h => Bool.noConfusion h⟩, ?_⟩
      · simp only [Step.event, Event.run]
        rw [SubclassProc_registry]
        exact hreg
      · intro c hc
        simp only [Step.event, Event.run] at hc
        rw [ho] at hc
        exact absurd hc (List.not_mem_nil _)
  | other e =>
    have hne : e.hwnd ≠ A := by
      cases pending <;> exact hadm.1
    have hrest : admissible p A pending rest := by
      cases pending <;> exact hadm.2
    refine ⟨pending, hrest, ⟨Event.run_keeps e g p A hreg, ?_⟩, ?_⟩
    · intro hp
      simp only [Step.event]
      rw [Event.run_flag_other e A g hne]
      exact hflag hp
    · cases e with
      | hook os nCode wParam pCwp => exact CallWndProc_calls os nCode wParam pCwp g A
      | override os hwnd uMsg wParam lParam =>
        exact SubclassProc_calls_other os hwnd A uMsg wParam lParam g hne

/-- Along an admissible history the invariant holds after every prefix, the
rest is admissible, and no call of the prefix hands a `WM_CLOSE` of `A` to the
default handler. -/
theorem history_prefix (p : DWORD) (A : HWND) (pre rest : List Step) (pending : Bool)
    (g : Globals) (hinv : mainWindowInv p A pending g)
    (hadm : admissible p A pending (pre ++ rest)) :
    ∃ pending', admissible p A pending' rest ∧
      mainWindowInv p A pending' (runEvents (historyEvents A pre) g).1 ∧
      ∀ c ∈ (runEvents (historyEvents A pre) g).2, c.isDefaultCloseOf A = false := by
  induction pre generalizing pending g with
  | nil =>
    exact ⟨pending, hadm, hinv, fun c hc => absurd hc (List.not_mem_nil _)⟩
  | cons st more ih =>
    obtain ⟨q, hq, hinvq, hcalls⟩ := Step.preserves p A pending st (more ++ rest) g hinv hadm
    obtain ⟨q', hq', hinvq', hcalls'⟩ := ih q _ hinvq hq
    refine ⟨q', hq', ?_, ?_⟩
    · simpa only [historyEvents_cons, runEvents] using hinvq'
    · intro c hc
      simp only [historyEvents_cons, runEvents, List.mem_append] at hc
      rcases hc with hc | hc
      · exact hcalls c hc
      · exact hcalls' c hc

/-- C3: let `A` be the registered main window of process `p`, and take any
history in which every close attempt on `A` is delivered first to the hook
(for processing, `nCode` not negative, while the operating system reports `A`
as a window of `p` running `olk.exe`) and then to the override, with hook
and override invocations for other windows at any point in between. Then no
call of the whole history hands a `WM_CLOSE` of `A` to `DefSubclassProc`, `A`
stays registered, every delivery to the hook makes it return 0, call
`ShowWindow(A, SW_HIDE)`, not call `CallNextHookEx` and arm the flag of `A`,
and every delivery to the override makes it return 0 without any call. -/
theorem C3_main_window_never_closed (p : DWORD) (A : HWND) (g : Globals) (steps : List Step)
    (hreg : g.firstOlkWindowMap.find p = some A) (hadm : admissible p A false steps) :
    (∀ c ∈ (runEvents (historyEvents A steps) g).2, c.isDefaultCloseOf A = false) ∧
    (runEvents (historyEvents A steps) g).1.firstOlkWindowMap.find p = some A ∧
    (∀ (pre post : List Step) (os : OS) (nCode : Int) (hookWParam wParam : WPARAM)
      (lParam : LPARAM),
      steps = pre ++ Step.hookA os nCode hookWParam wParam lParam :: post →
      (CallWndProc os nCode hookWParam
        { lParam := lParam, wParam := wParam, message := WM_CLOSE, hwnd := A }
        (runEvents (historyEvents A pre) g).1).1 = 0 ∧
      OSCall.ShowWindow A SW_HIDE ∈ (CallWndProc os nCode hookWParam
        { lParam := lParam, wParam := wParam, message := WM_CLOSE, hwnd := A }
        (runEvents (historyEvents A pre) g).1).2.2 ∧
      (∀ c ∈ (CallWndProc os nCode hookWParam
        { lParam := lParam, wParam := wParam, message := WM_CLOSE, hwnd := A }
        (runEvents (historyEvents A pre) g).1).2.2, c.isCallNextHookEx = false) ∧
      (CallWndProc os nCode hookWParam
        { lParam := lParam, wParam := wParam, message := WM_CLOSE, hwnd := A }
        (runEvents (historyEvents A pre) g).1).2.1.ignoreCloseMessage.find A = some true) ∧
    (∀ (pre post : List Step) (os : OS) (wParam : WPARAM) (lParam : LPARAM),
      steps = pre ++ Step.overrideA os wParam lParam :: post →
      (SubclassProc os A WM_CLOSE wParam lParam (runEvents (historyEvents A pre) g).1).1 = 0 ∧
      (SubclassProc os A WM_CLOSE wParam lParam (runEvents (historyEvents A pre) g).1).2.2
        = []) := by
  have hinv0 : mainWindowInv p A false g := ⟨hreg, fun h => Bool.noConfusion h⟩
  refine ⟨?_, ?_, ?_, ?_⟩
  · obtain ⟨_, _, _, h⟩ := history_prefix p A steps [] false g hinv0 (by simpa using hadm)
    exact h
  · obtain ⟨_, _, h, _⟩ := history_prefix p A steps [] false g hinv0 (by simpa using hadm)
    exact h.1
  · intro pre post os nCode hookWParam wParam lParam hsplit
    obtain ⟨q, hq, hinvq, _⟩ := history_prefix p A pre _ false g hinv0 (by rw [← hsplit]; exact hadm)
    cases q with
    | true => exact False.elim hq
    | false =>
      obtain ⟨hcode, hpid, hok, _⟩ := hq
      have hat := attempt_on_main_window os nCode hookWParam wParam lParam p A _ hinvq.1 hcode
        hpid hok
      exact ⟨hat.1, hat.2.1, hat.2.2.1, hat.2.2.2.1⟩
  · intro pre post os wParam lParam hsplit
    obtain ⟨q, hq, hinvq, _⟩ := history_prefix p A pre _ false g hinv0 (by rw [← hsplit]; exact hadm)
    cases q with
    | false => exact False.elim hq
    | true =>
      have ho := SubclassProc_armed os A wParam lParam _ (hinvq.2 rfl)
      exact ⟨by rw [ho], by rw [ho]⟩

/-- C3 at a concrete history of window 7 of process 100: two close attempts,
a close of window 8 reaching the hook in the middle of the first. Window 7
stays registered, and the second delivery to the hook returns 0 and arms the
flag again. -/
theorem C3_main_window_never_closed_witness :
    admissible 100 7 false sampleHistory ∧
    (runEvents (historyEvents 7 sampleHistory) sampleGlobals).1.firstOlkWindowMap.find 100
      = some 7 ∧
    (CallWndProc (sampleOS 100 "OLK.EXE" 9) 0 0
      { lParam := 0, wParam := 0, message := WM_CLOSE, hwnd := 7 }
      (runEvents (historyEvents 7 (sampleHistory.take 3)) sampleGlobals).1).1 = 0 ∧
    (CallWndProc (sampleOS 100 "OLK.EXE" 9) 0 0
      { lParam := 0, wParam := 0, message := WM_CLOSE, hwnd := 7 }
      (runEvents (historyEvents 7 (sampleHistory.take 3))
        sampleGlobals).1).2.1.ignoreCloseMessage.find 7 = some true :=
  have hadm : admissible 100 7 false sampleHistory :=
    ⟨by decide, rfl, by decide, ⟨by decide, ⟨by decide, rfl, by decide, trivial⟩⟩⟩
  have hhook := (C3_main_window_never_closed 100 7 sampleGlobals sampleHistory rfl hadm).2.2.1
    (sampleHistory.take 3) [Step.overrideA (sampleOS 100 "OLK.EXE" 9) 0 0]
    (sampleOS 100 "OLK.EXE" 9) 0 0 0 0 rfl
  ⟨hadm, (C3_main_window_never_closed 100 7 sampleGlobals sampleHistory rfl hadm).2.1,
    hhook.1, hhook.2.2.2⟩

/-! ## Activation and deactivation: `SetHook`, `RemoveHook` -/

theorem SetHook_active (os : OS) (g : Globals) (h : g.hookSet = true) :
    SetHook os g = (g, []) := by
  simp [SetHook, h]

theorem SetHook_inactive_state (os : OS) (g : Globals) (h : g.hookSet = false) :
    (SetHook os g).1 =
      { g with hHookCallWndProc := os.SetWindowsHookEx,
               hookSet := decide (os.SetWindowsHookEx ≠ 0) } := by
  unfold SetHook
  rw [if_pos h]
  by_cases h0 : os.SetWindowsHookEx = 0
  · simp only [h0, if_true]
    rw [h]
    rfl
  · simp only [h0, if_false]
    simp [h0]

theorem RemoveHook_no_hook (g : Globals) (h : g.hHookCallWndProc = 0) :
    RemoveHook g = (g, []) := by
  simp [RemoveHook, h]

/-- C6, as the code has it: two `SetHook` calls in a row leave the hook state
(handle and active flag) of one call whenever the first call leaves the hook
active or the second installation request fails too; a `SetHook` call while
the hook is active changes nothing and calls nothing; two `RemoveHook` calls
in a row leave the globals of one call, the second calling nothing; and
`RemoveHook` with no hook installed, as in a module never activated, changes
nothing. -/
theorem C6_activation_idempotent (os1 os2 : OS) (g : Globals) :
    ((SetHook os1 g).1.hookSet = true ∨ os2.SetWindowsHookEx = 0 →
      (SetHook os2 (SetHook os1 g).1).1.hookState = (SetHook os1 g).1.hookState) ∧
    (g.hookSet = true → SetHook os1 g = (g, [])) ∧
    RemoveHook (RemoveHook g).1 = ((RemoveHook g).1, []) ∧
    (g.hHookCallWndProc = 0 → RemoveHook g = (g, [])) ∧
    RemoveHook Globals.initial = (Globals.initial, []) := by
  refine ⟨?_, SetHook_active os1 g, ?_, RemoveHook_no_hook g, rfl⟩
  · intro h
    cases hs : (SetHook os1 g).1.hookSet with
    | true => rw [SetHook_active os2 _ hs]
    | false =>
      rw [hs] at h
      have h2 : os2.SetWindowsHookEx = 0 := by
        rcases h with h | h
        · exact Bool.noConfusion h
        · exact h
      have hg : g.hookSet = false := by
        cases hg : g.hookSet with
        | false => rfl
        | true =>
          rw [SetHook_active os1 g hg] at hs
          rw [hg] at hs
          exact Bool.noConfusion hs
      have h1 : os1.SetWindowsHookEx = 0 := by
        rw [SetHook_inactive_state os1 g hg] at hs
        simpa using hs
      rw [SetHook_inactive_state os2 _ hs, SetHook_inactive_state os1 g hg]
      simp [Globals.hookState, h1, h2]
  · apply RemoveHook_no_hook
    simp only [RemoveHook]
    split_ifs with h0
    · rfl
    · simpa using h0

/-- C6 at a concrete input: both installations succeed. -/
theorem C6_activation_idempotent_witness :
    (SetHook (sampleOS 100 "olk.exe" 9) Globals.initial).1.hookSet = true ∧
    (SetHook (sampleOS 100 "olk.exe" 12)
        (SetHook (sampleOS 100 "olk.exe" 9) Globals.initial).1).1.hookState = (9, true) :=
  ⟨by decide,
    (C6_activation_idempotent (sampleOS 100 "olk.exe" 9) (sampleOS 100 "olk.exe" 12)
      Globals.initial).1 (Or.inl (by decide))⟩

/-- C6 as stated fails: when the first installation request fails (answer 0)
and the second succeeds (handle 9), one `SetHook` call from the initial state
leaves the hook state `(0, false)` and two calls leave `(9, true)`. -/
theorem C6_counterexample :
    (SetHook (sampleOS 100 "olk.exe" 0) Globals.initial).1.hookState = (0, false) ∧
    (SetHook (sampleOS 100 "olk.exe" 9)
        (SetHook (sampleOS 100 "olk.exe" 0) Globals.initial).1).1.hookState = (9, true) ∧
    (SetHook (sampleOS 100 "olk.exe" 9)
        (SetHook (sampleOS 100 "olk.exe" 0) Globals.initial).1).1.hookState ≠
      (SetHook (sampleOS 100 "olk.exe" 0) Globals.initial).1.hookState := by
  decide

/-! ## Injection: `InjectDLL` -/

/-- C7: each of the three failures of `InjectDLL` is reported by one message
box with its own text, and nothing of the injection is done after the call
that failed: when the process cannot be opened no call acts on a target
process; when the allocation fails the allocation request is the only such
call; when the thread cannot be created the calls are the allocation, the
write and the failed creation, without any wait. The three texts differ
pairwise. -/
theorem C7_injection_failures_reported (os : InjectOS) (processID : DWORD) (dllPath : String) :
    (os.OpenProcess processID = 0 →
      reports (InjectDLL os processID dllPath) = [msgOpenFailed] ∧
      (InjectDLL os processID dllPath).filter OSCall.remoteStep = []) ∧
    (os.OpenProcess processID ≠ 0 →
      os.VirtualAllocEx (os.OpenProcess processID) ((dllPath.length + 1) * 2) = 0 →
      reports (InjectDLL os processID dllPath) = [msgAllocFailed] ∧
      (InjectDLL os processID dllPath).filter OSCall.remoteStep =
        [OSCall.VirtualAllocEx (os.OpenProcess processID) ((dllPath.length + 1) * 2)]) ∧
    (os.OpenProcess processID ≠ 0 →
      os.VirtualAllocEx (os.OpenProcess processID) ((dllPath.length + 1) * 2) ≠ 0 →
      os.CreateRemoteThread (os.OpenProcess processID)
        (os.VirtualAllocEx (os.OpenProcess processID) ((dllPath.length + 1) * 2)) = 0 →
      reports (InjectDLL os processID dllPath) = [msgThreadFailed] ∧
      (InjectDLL os processID dllPath).filter OSCall.remoteStep =
        [OSCall.VirtualAllocEx (os.OpenProcess processID) ((dllPath.length + 1) * 2),
         OSCall.WriteProcessMemory (os.OpenProcess processID)
           (os.VirtualAllocEx (os.OpenProcess processID) ((dllPath.length + 1) * 2)) dllPath
           ((dllPath.length + 1) * 2),
         OSCall.CreateRemoteThread (os.OpenProcess processID)
           (os.VirtualAllocEx (os.OpenProcess processID) ((dllPath.length + 1) * 2))]) ∧
    msgOpenFailed ≠ msgAllocFailed ∧ msgOpenFailed ≠ msgThreadFailed ∧
    msgAllocFailed ≠ msgThreadFailed := by
  refine ⟨?_, ?_, ?_, by decide, by decide, by decide⟩
  · intro h
    simp [InjectDLL, h, reports, OSCall.remoteStep]
  · intro h h2
    simp [InjectDLL, h, h2, reports, OSCall.remoteStep]
  · intro h h2 h3
    simp [InjectDLL, h, h2, h3, reports, OSCall.remoteStep]

/-- C7 at concrete inputs: the process cannot be opened; the thread cannot be
created. -/
theorem C7_injection_failures_reported_witness :
    reports (InjectDLL (sampleInjectOS 0 4096 true 6) 100 "OlkWindowHook.dll")
      = ["Failed to open target process"] ∧
    (InjectDLL (sampleInjectOS 0 4096 true 6) 100 "OlkWindowHook.dll").filter OSCall.remoteStep
      = [] ∧
    reports (InjectDLL (sampleInjectOS 5 4096 true 0) 100 "OlkWindowHook.dll")
      = ["Failed to create remote thread"] :=
  ⟨((C7_injection_failures_reported (sampleInjectOS 0 4096 true 6) 100
      "OlkWindowHook.dll").1 rfl).1,
    ((C7_injection_failures_reported (sampleInjectOS 0 4096 true 6) 100
      "OlkWindowHook.dll").1 rfl).2,
    ((C7_injection_failures_reported (sampleInjectOS 5 4096 true 0) 100
      "OlkWindowHook.dll").2.2.1 (by decide) (by decide) rfl).1⟩

/-- The calls of `InjectDLL` do not depend on what `WriteProcessMemory`
answers. -/
theorem InjectDLL_ignores_write_result (hProcess : HANDLE) (addr : Nat) (hThread : HANDLE)
    (processID : DWORD) (dllPath : String) :
    InjectDLL (sampleInjectOS hProcess addr false hThread) processID dllPath =
      InjectDLL (sampleInjectOS hProcess addr true hThread) processID dllPath := by
  rfl

/-- C8, the code at a failing input: the process opens (handle 5), the buffer
is allocated (address 4096), `WriteProcessMemory` fails, and `InjectDLL`
reports nothing and creates the remote thread on the buffer. -/
theorem C8_write_failure_unchecked :
    (sampleInjectOS 5 4096 false 6).WriteProcessMemory 5 4096 "OlkWindowHook.dll" 36 = false ∧
    reports (InjectDLL (sampleInjectOS 5 4096 false 6) 100 "OlkWindowHook.dll") = [] ∧
    InjectDLL (sampleInjectOS 5 4096 false 6) 100 "OlkWindowHook.dll" =
      [OSCall.OpenProcess 100, OSCall.VirtualAllocEx 5 36,
       OSCall.WriteProcessMemory 5 4096 "OlkWindowHook.dll" 36,
       OSCall.CreateRemoteThread 5 4096, OSCall.WaitForSingleObject 6,
       OSCall.VirtualFreeEx 5 4096, OSCall.CloseHandle 6, OSCall.CloseHandle 5] := by
  decide

/-! ## Monitoring: `MonitorProcess` -/

/-- After an iteration `prevProcessID` is the result of its scan, and
`InjectDLL` is invoked with that result exactly when it is not 0 and differs
from the previous one. -/
theorem MonitorProcess.body_spec (os : MonitorOS) (dllPath : String) (st : MonitorState) :
    (MonitorProcess.body os dllPath st).1.prevProcessID = FindProcessId os.snapshot "olk.exe" ∧
    injections (MonitorProcess.body os dllPath st).2 =
      if FindProcessId os.snapshot "olk.exe" ≠ 0 ∧
          FindProcessId os.snapshot "olk.exe" ≠ st.prevProcessID
      then [FindProcessId os.snapshot "olk.exe"] else [] := by
  simp only [MonitorProcess.body]
  generalize FindProcessId os.snapshot "olk.exe" = r
  by_cases h0 : r = 0
  · simp [h0, injections]
  · by_cases h1 : r = st.prevProcessID
    · subst h1
      simp [h0, injections]
    · simp only [h0, h1, ne_eq, not_false_eq_true, and_self, if_true, if_false]
      refine ⟨trivial, ?_⟩
      split_ifs <;> simp [injections]

theorem scanResult_cons_zero (os : MonitorOS) (rest : List MonitorOS) :
    scanResult (os :: rest) 0 = FindProcessId os.snapshot "olk.exe" := by
  simp [scanResult]

theorem scanResult_cons_succ (os : MonitorOS) (rest : List MonitorOS) (j : Nat) :
    scanResult (os :: rest) (j + 1) = scanResult rest j := by
  simp [scanResult]

/-- The loop, from any value of `prevProcessID`: iteration `i` invokes
`InjectDLL` with the result of its scan exactly when that result is not 0 and
differs from the result before it. -/
theorem MonitorProcess.loop_spec (dllPath : String) (scans : List MonitorOS) (st : MonitorState)
    (i : Nat) :
    injections ((MonitorProcess.loop dllPath scans st).2.getD i []) =
      if scanResult scans i ≠ 0 ∧
          scanResult scans i ≠
            (match i with
              | 0 => st.prevProcessID
              | j + 1 => scanResult scans j)
      then [scanResult scans i] else [] := by
  induction scans generalizing st i with
  | nil => simp [MonitorProcess.loop, scanResult, injections]
  | cons os rest ih =>
    cases i with
    | zero =>
      simp only [MonitorProcess.loop, List.getD_cons_zero, scanResult_cons_zero]
      exact (MonitorProcess.body_spec os dllPath st).2
    | succ j =>
      simp only [MonitorProcess.loop, List.getD_cons_succ, scanResult_cons_succ]
      rw [ih (MonitorProcess.body os dllPath st).1 j]
      cases j with
      | zero =>
        simp only [scanResult_cons_zero]
        rw [(MonitorProcess.body_spec os dllPath st).1]
      | succ k => simp only [scanResult_cons_succ]

theorem MonitorProcess.loop_length (dllPath : String) (scans : List MonitorOS)
    (st : MonitorState) : (MonitorProcess.loop dllPath scans st).2.length = scans.length := by
  induction scans generalizing st with
  | nil => rfl
  | cons os rest ih => simp [MonitorProcess.loop, ih]

/-- C9: `MonitorProcess` makes one iteration per scan, and in iteration `i`
it invokes `InjectDLL` exactly when the result of the scan is not 0 and
differs from the result of the scan before (0 before the first), once and
with that result as process identifier. Hence no injection while the same
identifier keeps being observed, and an injection again when the identifier
is observed after a scan that found nothing. -/
theorem C9_injection_per_new_process (exePath : String) (hModule : Nat)
    (scans : List MonitorOS) (atExit : Nat → String → Bool) (i : Nat) :
    (MonitorProcess exePath hModule scans atExit).1.length = scans.length ∧
    injections ((MonitorProcess exePath hModule scans atExit).1.getD i []) =
      (if scanResult scans i ≠ 0 ∧ scanResult scans i ≠ previousScan scans i
        then [scanResult scans i] else []) ∧
    (scanResult scans i = previousScan scans i →
      injections ((MonitorProcess exePath hModule scans atExit).1.getD i []) = []) ∧
    (scanResult scans (i + 1) ≠ 0 → scanResult scans i = 0 →
      injections ((MonitorProcess exePath hModule scans atExit).1.getD (i + 1) []) =
        [scanResult scans (i + 1)]) := by
  have key : ∀ j, injections ((MonitorProcess exePath hModule scans atExit).1.getD j []) =
      (if scanResult scans j ≠ 0 ∧ scanResult scans j ≠ previousScan scans j
        then [scanResult scans j] else []) := by
    intro j
    simp only [MonitorProcess]
    rw [MonitorProcess.loop_spec]
    cases j <;> rfl
  refine ⟨?_, key i, ?_, ?_⟩
  · simp only [MonitorProcess]
    exact MonitorProcess.loop_length _ _ _
  · intro h
    rw [key i, h]
    simp
  · intro h1 h0
    rw [key (i + 1)]
    have hp : previousScan scans (i + 1) = 0 := h0
    rw [hp]
    simp [h1]

/-- C9 at a concrete run: the scans find process 100, 100 again, nothing, and
100 again; `InjectDLL` is invoked in the first and the last iteration. -/
theorem C9_injection_per_new_process_witness :
    scanResult [sampleScan 100, sampleScan 100, sampleScan 0, sampleScan 100] 1 =
      previousScan [sampleScan 100, sampleScan 100, sampleScan 0, sampleScan 100] 1 ∧
    injections ((MonitorProcess "C:/olk/OlkWindowHook.exe" 0
      [sampleScan 100, sampleScan 100, sampleScan 0, sampleScan 100]
      (fun _ _ => true)).1.getD 1 []) = [] ∧
    injections ((MonitorProcess "C:/olk/OlkWindowHook.exe" 0
      [sampleScan 100, sampleScan 100, sampleScan 0, sampleScan 100]
      (fun _ _ => true)).1.getD 3 []) = [100] :=
  ⟨by decide,
    (C9_injection_per_new_process "C:/olk/OlkWindowHook.exe" 0
      [sampleScan 100, sampleScan 100, sampleScan 0, sampleScan 100]
      (fun _ _ => true) 1).2.2.1 (by decide),
    (C9_injection_per_new_process "C:/olk/OlkWindowHook.exe" 0
      [sampleScan 100, sampleScan 100, sampleScan 0, sampleScan 100]
      (fun _ _ => true) 2).2.2.2 (by decide) (by decide)⟩

/-! ## Two threads in `IsFirstOlkExeWindow` -/

theorem Sys.setThread_same (s : Sys) (t : Bool) (th : Thread) :
    (s.setThread t th).thread t = th := by
  simp [Sys.setThread]

theorem Sys.setThread_other (s : Sys) (t u : Bool) (th : Thread) (h : u ≠ t) :
    (s.setThread t th).thread u = s.thread u := by
  simp [Sys.setThread, h]

/-- A step of a thread leaves the other thread as it is. -/
theorem Sys.step_other (os : OS) (s : Sys) (t u : Bool) (h : u ≠ t) :
    (Sys.step os t s).thread u = s.thread u := by
  simp only [Sys.step]
  split
  · simp [Sys.setThread, h]
  · split <;> simp [Sys.setThread, h]
  · split_ifs <;> simp [Sys.setThread, h]
  · simp [Sys.setThread, h]
  · simp [Sys.setThread, h]
  · simp [Sys.setThread, h]
  · rfl

theorem Sys.init_inv (p : DWORD) (m : UMap HWND) (w0 w1 : HWND) (habs : m.find p = none) :
    Sys.Inv p (fun t => if t then w1 else w0) (Sys.init m w0 w1) where
  hwnd := fun t => rfl
  procId := fun t h => absurd rfl h
  mutex := fun t => by simp [Sys.init, PC.holdsLock]
  atInsert := fun t h => by simp [Sys.init] at h
  atCompare := fun t h => by simp [Sys.init] at h
  found := fun t h => by simp [Sys.init, PC.returned] at h
  ret := fun t h => by simp [Sys.init, PC.returned] at h
  winner := fun x h => by
    simp only [Sys.init] at h
    rw [habs] at h
    exact Option.noConfusion h

theorem Sys.Inv.exclusive {p : DWORD} {w : Bool → HWND} {s : Sys} (hinv : Sys.Inv p w s)
    (t u : Bool) (ht : (s.thread t).pc.holdsLock = true) (hu : u ≠ t) :
    (s.thread u).pc.holdsLock = false := by
  cases h : (s.thread u).pc.holdsLock with
  | false => rfl
  | true =>
    have h1 := (hinv.mutex t).2 ht
    have h2 := (hinv.mutex u).2 h
    rw [h1] at h2
    exact absurd (Option.some.inj h2).symm hu

theorem Sys.step_inv_start (os : OS) (p : DWORD) (w : Bool → HWND)
    (hpid : ∀ t, os.GetWindowThreadProcessId (w t) = p)
    (t : Bool) (s : Sys) (hinv : Sys.Inv p w s) (hpc : (s.thread t).pc = PC.start) :
    Sys.Inv p w (Sys.step os t s) := by
  have hstep : Sys.step os t s = s.setThread t
      { s.thread t with procId := os.GetWindowThreadProcessId (s.thread t).hwnd, pc := PC.lock } := by
    simp only [Sys.step, hpc]
  rw [hstep]
  constructor
  · intro u
    by_cases hu : u = t
    · subst hu; simp [Sys.setThread, hinv.hwnd]
    · simp [Sys.setThread, hu, hinv.hwnd]
  · intro u
    by_cases hu : u = t
    · subst hu; simp [Sys.setThread, hinv.hwnd, hpid]
    · simpa [Sys.setThread, hu] using hinv.procId u
  · intro u
    by_cases hu : u = t
    · subst hu
      have := hinv.mutex u
      simp [Sys.setThread, PC.holdsLock, hpc] at this ⊢
      exact this
    · simpa [Sys.setThread, hu] using hinv.mutex u
  · intro u
    by_cases hu : u = t
    · subst hu; simp [Sys.setThread]
    · simpa [Sys.setThread, hu] using hinv.atInsert u
  · intro u
    by_cases hu : u = t
    · subst hu; simp [Sys.setThread]
    · simpa [Sys.setThread, hu] using hinv.atCompare u
  · intro u
    by_cases hu : u = t
    · subst hu; simp [Sys.setThread, PC.returned]
    · simpa [Sys.setThread, hu] using hinv.found u
  · intro u
    by_cases hu : u = t
    · subst hu; simp [Sys.setThread, PC.returned]
    · simpa [Sys.setThread, hu] using hinv.ret u
  · intro x hx
    obtain ⟨u, hxu, hur⟩ := hinv.winner x hx
    refine ⟨u, hxu, ?_⟩
    by_cases hu : u = t
    · subst hu; simp [hpc, PC.returned] at hur
    · simpa [Sys.setThread, hu] using hur

theorem Sys.step_inv_lock (os : OS) (p : DWORD) (w : Bool → HWND)
    (t : Bool) (s : Sys) (hinv : Sys.Inv p w s) (hpc : (s.thread t).pc = PC.lock) :
    Sys.Inv p w (Sys.step os t s) := by
  cases hm : s.mapMutex with
  | some o =>
    have hstep : Sys.step os t s = s := by simp only [Sys.step, hpc, hm]
    rw [hstep]; exact hinv
  | none =>
    have hstep : Sys.step os t s =
        { s.setThread t { s.thread t with pc := PC.test } with mapMutex := some t } := by
      simp only [Sys.step, hpc, hm]
    rw [hstep]
    constructor
    · intro u
      by_cases hu : u = t
      · subst hu; simp [Sys.setThread, hinv.hwnd]
      · simp [Sys.setThread, hu, hinv.hwnd]
    · intro u
      by_cases hu : u = t
      · subst hu
        have := hinv.procId u
        simp [Sys.setThread, hpc] at this ⊢
        exact this
      · simpa [Sys.setThread, hu] using hinv.procId u
    · intro u
      by_cases hu : u = t
      · subst hu; simp [Sys.setThread, PC.holdsLock]
      · have h1 := hinv.mutex u
        rw [hm] at h1
        have hu' : ¬ t = u := fun e => hu e.symm
        simp [Sys.setThread, hu, hu'] at h1 ⊢
        exact h1
    · intro u
      by_cases hu : u = t
      · subst hu; simp [Sys.setThread]
      · simpa [Sys.setThread, hu] using hinv.atInsert u
    · intro u
      by_cases hu : u = t
      · subst hu; simp [Sys.setThread]
      · simpa [Sys.setThread, hu] using hinv.atCompare u
    · intro u
      by_cases hu : u = t
      · subst hu; simp [Sys.setThread, PC.returned]
      · simpa [Sys.setThread, hu] using hinv.found u
    · intro u
      by_cases hu : u = t
      · subst hu; simp [Sys.setThread, PC.returned]
      · simpa [Sys.setThread, hu] using hinv.ret u
    · intro x hx
      obtain ⟨u, hxu, hur⟩ := hinv.winner x hx
      refine ⟨u, hxu, ?_⟩
      by_cases hu : u = t
      · subst hu; simp [hpc, PC.returned] at hur
      · simpa [Sys.setThread, hu] using hur

theorem Sys.step_inv_test (os : OS) (p : DWORD) (w : Bool → HWND)
    (t : Bool) (s : Sys) (hinv : Sys.Inv p w s) (hpc : (s.thread t).pc = PC.test) :
    Sys.Inv p w (Sys.step os t s) := by
  have hp : (s.thread t).procId = p := hinv.procId t (by rw [hpc]; decide)
  have hm : s.mapMutex = some t := (hinv.mutex t).2 (by rw [hpc]; rfl)
  have hstep : ∃ pc', (pc' = PC.insert ∧ s.firstOlkWindowMap.find p = none ∨
        pc' = PC.compare ∧ s.firstOlkWindowMap.find p ≠ none) ∧
      Sys.step os t s = s.setThread t { s.thread t with pc := pc' } := by
    by_cases hf : s.firstOlkWindowMap.find p = none
    · exact ⟨PC.insert, Or.inl ⟨rfl, hf⟩, by simp only [Sys.step, hpc, hp, hf, if_true]⟩
    · exact ⟨PC.compare, Or.inr ⟨rfl, hf⟩, by simp only [Sys.step, hpc, hp, hf, if_false]⟩
  obtain ⟨pc', hpc', hstep⟩ := hstep
  have hhold : pc'.holdsLock = true := by rcases hpc' with ⟨e, _⟩ | ⟨e, _⟩ <;> subst e <;> rfl
  have hret : pc'.returned = false := by rcases hpc' with ⟨e, _⟩ | ⟨e, _⟩ <;> subst e <;> rfl
  have hstart : pc' ≠ PC.start := by rcases hpc' with ⟨e, _⟩ | ⟨e, _⟩ <;> subst e <;> decide
  rw [hstep]
  constructor
  · intro u
    by_cases hu : u = t
    · subst hu; simp [Sys.setThread, hinv.hwnd]
    · simp [Sys.setThread, hu, hinv.hwnd]
  · intro u
    by_cases hu : u = t
    · subst hu; simp [Sys.setThread, hp]
    · simpa [Sys.setThread, hu] using hinv.procId u
  · intro u
    by_cases hu : u = t
    · subst hu; simp [Sys.setThread, hhold, hm]
    · simpa [Sys.setThread, hu] using hinv.mutex u
  · intro u
    by_cases hu : u = t
    · subst hu
      simp only [Sys.setThread, if_true]
      intro e
      rcases hpc' with ⟨_, h⟩ | ⟨e', _⟩
      · exact h
      · rw [e'] at e; exact PC.noConfusion e
    · simpa [Sys.setThread, hu] using hinv.atInsert u
  · intro u
    by_cases hu : u = t
    · subst hu
      simp only [Sys.setThread, if_true]
      intro e
      rcases hpc' with ⟨e', _⟩ | ⟨_, h⟩
      · rw [e'] at e; exact PC.noConfusion e
      · exact h
    · simpa [Sys.setThread, hu] using hinv.atCompare u
  · intro u
    by_cases hu : u = t
    · subst hu; simp [Sys.setThread, hret]
    · simpa [Sys.setThread, hu] using hinv.found u
  · intro u
    by_cases hu : u = t
    · subst hu; simp [Sys.setThread, hret]
    · simpa [Sys.setThread, hu] using hinv.ret u
  · intro x hx
    obtain ⟨u, hxu, hur⟩ := hinv.winner x hx
    refine ⟨u, hxu, ?_⟩
    by_cases hu : u = t
    · subst hu; simp [hpc, PC.returned] at hur
    · simpa [Sys.setThread, hu] using hur

theorem Sys.step_inv_insert (os : OS) (p : DWORD) (w : Bool → HWND)
    (t : Bool) (s : Sys) (hinv : Sys.Inv p w s) (hpc : (s.thread t).pc = PC.insert) :
    Sys.Inv p w (Sys.step os t s) := by
  have hp : (s.thread t).procId = p := hinv.procId t (by rw [hpc]; decide)
  have hw : (s.thread t).hwnd = w t := hinv.hwnd t
  have hnone : s.firstOlkWindowMap.find p = none := hinv.atInsert t hpc
  have hexcl := fun u hu => hinv.exclusive t u (by rw [hpc]; rfl) hu
  have hstep : Sys.step os t s =
      { s.setThread t { s.thread t with ret := true, pc := PC.unlock } with
        firstOlkWindowMap := s.firstOlkWindowMap.assign p (w t) } := by
    simp only [Sys.step, hpc, hp, hw]
  have hfind : (s.firstOlkWindowMap.assign p (w t)).find p = some (w t) :=
    UMap.find_assign_same _ _ _
  rw [hstep]
  constructor
  · intro u
    by_cases hu : u = t
    · subst hu; simp [Sys.setThread, hinv.hwnd]
    · simp [Sys.setThread, hu, hinv.hwnd]
  · intro u
    by_cases hu : u = t
    · subst hu; simp [Sys.setThread, hp]
    · simpa [Sys.setThread, hu] using hinv.procId u
  · intro u
    by_cases hu : u = t
    · subst hu
      have := hinv.mutex u
      simp [Sys.setThread, PC.holdsLock, hpc] at this ⊢
      exact this
    · simpa [Sys.setThread, hu] using hinv.mutex u
  · intro u
    by_cases hu : u = t
    · subst hu; simp [Sys.setThread]
    · intro e
      have e' : (s.thread u).pc = PC.insert := by simpa [Sys.setThread, hu] using e
      have := hexcl u hu
      rw [e'] at this
      exact Bool.noConfusion this
  · intro u _
    simp only [hfind]
    exact Option.noConfusion
  · intro u _
    simp only [hfind]
    exact Option.noConfusion
  · intro u
    by_cases hu : u = t
    · subst hu; simp [Sys.setThread, hfind]
    · intro e
      have e' : (s.thread u).pc.returned = true := by simpa [Sys.setThread, hu] using e
      exact absurd hnone (hinv.found u e')
  · intro x hx
    simp only [hfind] at hx
    refine ⟨t, (Option.some.inj hx).symm, ?_⟩
    simp [Sys.setThread, PC.returned]

theorem Sys.step_inv_compare (os : OS) (p : DWORD) (w : Bool → HWND)
    (t : Bool) (s : Sys) (hinv : Sys.Inv p w s) (hpc : (s.thread t).pc = PC.compare) :
    Sys.Inv p w (Sys.step os t s) := by
  have hp : (s.thread t).procId = p := hinv.procId t (by rw [hpc]; decide)
  have hw : (s.thread t).hwnd = w t := hinv.hwnd t
  have hsome : s.firstOlkWindowMap.find p ≠ none := hinv.atCompare t hpc
  obtain ⟨x, hx⟩ := Option.ne_none_iff_exists'.1 hsome
  have hstep : Sys.step os t s =
      { s.setThread t { s.thread t with ret := decide (x = w t), pc := PC.unlock } with
        firstOlkWindowMap := s.firstOlkWindowMap } := by
    simp only [Sys.step, hpc, hp, hw, UMap.index_of_find _ _ 0 x hx]
  rw [hstep]
  constructor
  · intro u
    by_cases hu : u = t
    · subst hu; simp [Sys.setThread, hinv.hwnd]
    · simp [Sys.setThread, hu, hinv.hwnd]
  · intro u
    by_cases hu : u = t
    · subst hu; simp [Sys.setThread, hp]
    · simpa [Sys.setThread, hu] using hinv.procId u
  · intro u
    by_cases hu : u = t
    · subst hu
      have := hinv.mutex u
      simp [Sys.setThread, PC.holdsLock, hpc] at this ⊢
      exact this
    · simpa [Sys.setThread, hu] using hinv.mutex u
  · intro u
    by_cases hu : u = t
    · subst hu; simp [Sys.setThread]
    · simpa [Sys.setThread, hu] using hinv.atInsert u
  · intro u _
    exact hsome
  · intro u _
    exact hsome
  · intro u
    by_cases hu : u = t
    · subst hu; simp [Sys.setThread, hx]
    · simpa [Sys.setThread, hu] using hinv.ret u
  · intro y hy
    obtain ⟨u, hyu, hur⟩ := hinv.winner y hy
    refine ⟨u, hyu, ?_⟩
    by_cases hu : u = t
    · subst hu; simp [Sys.setThread, PC.returned]
    · simpa [Sys.setThread, hu] using hur

theorem Sys.step_inv_unlock (os : OS) (p : DWORD) (w : Bool → HWND)
    (t : Bool) (s : Sys) (hinv : Sys.Inv p w s) (hpc : (s.thread t).pc = PC.unlock) :
    Sys.Inv p w (Sys.step os t s) := by
  have hexcl := fun u hu => hinv.exclusive t u (by rw [hpc]; rfl) hu
  have hstep : Sys.step os t s =
      { s.setThread t { s.thread t with pc := PC.done } with mapMutex := none } := by
    simp only [Sys.step, hpc]
  rw [hstep]
  constructor
  · intro u
    by_cases hu : u = t
    · subst hu; simp [Sys.setThread, hinv.hwnd]
    · simp [Sys.setThread, hu, hinv.hwnd]
  · intro u
    by_cases hu : u = t
    · subst hu
      have := hinv.procId u
      simp [Sys.setThread, hpc] at this ⊢
      exact this
    · simpa [Sys.setThread, hu] using hinv.procId u
  · intro u
    by_cases hu : u = t
    · subst hu; simp [Sys.setThread, PC.holdsLock]
    · have := hexcl u hu
      simp [Sys.setThread, hu, this]
  · intro u
    by_cases hu : u = t
    · subst hu; simp [Sys.setThread]
    · simpa [Sys.setThread, hu] using hinv.atInsert u
  · intro u
    by_cases hu : u = t
    · subst hu; simp [Sys.setThread]
    · simpa [Sys.setThread, hu] using hinv.atCompare u
  · intro u
    by_cases hu : u = t
    · subst hu
      intro _
      exact hinv.found u (by rw [hpc]; rfl)
    · simpa [Sys.setThread, hu] using hinv.found u
  · intro u
    by_cases hu : u = t
    · subst hu
      have := hinv.ret u (by rw [hpc]; rfl)
      simpa [Sys.setThread, PC.returned] using this
    · simpa [Sys.setThread, hu] using hinv.ret u
  · intro y hy
    obtain ⟨u, hyu, hur⟩ := hinv.winner y hy
    refine ⟨u, hyu, ?_⟩
    by_cases hu : u = t
    · subst hu; simp [Sys.setThread, PC.returned]
    · simpa [Sys.setThread, hu] using hur

/-- Every step of either thread keeps the invariant. -/
theorem Sys.step_inv (os : OS) (p : DWORD) (w : Bool → HWND)
    (hpid : ∀ t, os.GetWindowThreadProcessId (w t) = p)
    (t : Bool) (s : Sys) (hinv : Sys.Inv p w s) : Sys.Inv p w (Sys.step os t s) := by
  cases hpc : (s.thread t).pc with
  | start => exact Sys.step_inv_start os p w hpid t s hinv hpc
  | lock => exact Sys.step_inv_lock os p w t s hinv hpc
  | test => exact Sys.step_inv_test os p w t s hinv hpc
  | insert => exact Sys.step_inv_insert os p w t s hinv hpc
  | compare => exact Sys.step_inv_compare os p w t s hinv hpc
  | unlock => exact Sys.step_inv_unlock os p w t s hinv hpc
  | done =>
    have hstep : Sys.step os t s = s := by simp only [Sys.step, hpc]
    rw [hstep]; exact hinv

theorem Sys.run_inv (os : OS) (p : DWORD) (w : Bool → HWND)
    (hpid : ∀ t, os.GetWindowThreadProcessId (w t) = p)
    (sched : List Bool) (s : Sys) (hinv : Sys.Inv p w s) : Sys.Inv p w (Sys.run os sched s) := by
  induction sched generalizing s with
  | nil => exact hinv
  | cons t ts ih => exact ih _ (Sys.step_inv os p w hpid t s hinv)

theorem Sys.run_append (os : OS) (a b : List Bool) (s : Sys) :
    Sys.run os (a ++ b) s = Sys.run os b (Sys.run os a s) := by
  induction a generalizing s with
  | nil => rfl
  | cons t ts ih => exact ih _

/-- A thread that is not kept waiting gets one step closer to its return,
and the mutex stays free or its own. -/
theorem Sys.step_rank (os : OS) (p : DWORD) (w : Bool → HWND) (t : Bool) (s : Sys)
    (hinv : Sys.Inv p w s) (hfree : s.mapMutex = none ∨ s.mapMutex = some t) :
    ((Sys.step os t s).thread t).pc.rank ≤ (s.thread t).pc.rank - 1 ∧
    ((Sys.step os t s).mapMutex = none ∨ (Sys.step os t s).mapMutex = some t) := by
  cases hpc : (s.thread t).pc with
  | start =>
    have hstep : Sys.step os t s = s.setThread t
        { s.thread t with procId := os.GetWindowThreadProcessId (s.thread t).hwnd,
                          pc := PC.lock } := by
      simp only [Sys.step, hpc]
    rw [hstep]
    exact ⟨by simp [Sys.setThread, PC.rank], hfree⟩
  | lock =>
    have hm : s.mapMutex = none := by
      rcases hfree with h | h
      · exact h
      · have := (hinv.mutex t).1 h
        rw [hpc] at this
        exact Bool.noConfusion this
    have hstep : Sys.step os t s =
        { s.setThread t { s.thread t with pc := PC.test } with mapMutex := some t } := by
      simp only [Sys.step, hpc, hm]
    rw [hstep]
    exact ⟨by simp [Sys.setThread, PC.rank], Or.inr rfl⟩
  | test =>
    by_cases hf : s.firstOlkWindowMap.find (s.thread t).procId = none
    · have hstep : Sys.step os t s = s.setThread t { s.thread t with pc := PC.insert } := by
        simp only [Sys.step, hpc, hf, if_true]
      rw [hstep]
      exact ⟨by simp [Sys.setThread, PC.rank], hfree⟩
    · have hstep : Sys.step os t s = s.setThread t { s.thread t with pc := PC.compare } := by
        simp only [Sys.step, hpc, hf, if_false]
      rw [hstep]
      exact ⟨by simp [Sys.setThread, PC.rank], hfree⟩
  | insert =>
    have hstep : Sys.step os t s =
        { s.setThread t { s.thread t with ret := true, pc := PC.unlock } with
          firstOlkWindowMap :=
            s.firstOlkWindowMap.assign (s.thread t).procId (s.thread t).hwnd } := by
      simp only [Sys.step, hpc]
    rw [hstep]
    exact ⟨by simp [Sys.setThread, PC.rank], hfree⟩
  | compare =>
    have hstep : Sys.step os t s =
        { s.setThread t
            { s.thread t with
              ret := decide ((s.firstOlkWindowMap.index (s.thread t).procId 0).1 =
                (s.thread t).hwnd),
              pc := PC.unlock } with
          firstOlkWindowMap := (s.firstOlkWindowMap.index (s.thread t).procId 0).2 } := by
      simp only [Sys.step, hpc]
    rw [hstep]
    exact ⟨by simp [Sys.setThread, PC.rank], hfree⟩
  | unlock =>
    have hstep : Sys.step os t s =
        { s.setThread t { s.thread t with pc := PC.done } with mapMutex := none } := by
      simp only [Sys.step, hpc]
    rw [hstep]
    exact ⟨by simp [Sys.setThread, PC.rank], Or.inl rfl⟩
  | done =>
    have hstep : Sys.step os t s = s := by simp only [Sys.step, hpc]
    rw [hstep, hpc]
    exact ⟨Nat.le_refl _, hfree⟩

theorem Sys.run_rank (os : OS) (p : DWORD) (w : Bool → HWND)
    (hpid : ∀ t, os.GetWindowThreadProcessId (w t) = p) (t : Bool) (n : Nat) (s : Sys)
    (hinv : Sys.Inv p w s) (hfree : s.mapMutex = none ∨ s.mapMutex = some t) :
    ((Sys.run os (List.replicate n t) s).thread t).pc.rank ≤ (s.thread t).pc.rank - n ∧
    ((Sys.run os (List.replicate n t) s).mapMutex = none ∨
      (Sys.run os (List.replicate n t) s).mapMutex = some t) := by
  induction n generalizing s with
  | zero => exact ⟨Nat.le_refl _, hfree⟩
  | succ k ih =>
    simp only [List.replicate_succ, Sys.run]
    obtain ⟨h1, h2⟩ := Sys.step_rank os p w t s hinv hfree
    obtain ⟨h3, h4⟩ := ih (Sys.step os t s) (Sys.step_inv os p w hpid t s hinv) h2
    exact ⟨by omega, h4⟩

theorem PC.done_of_rank (pc : PC) (h : pc.rank = 0) : pc = PC.done := by
  cases pc <;> simp [PC.rank] at h ⊢

theorem PC.rank_le (pc : PC) : pc.rank ≤ 5 := by
  cases pc <;> simp [PC.rank]

theorem Sys.run_other (os : OS) (t u : Bool) (h : u ≠ t) (n : Nat) (s : Sys) :
    (Sys.run os (List.replicate n t) s).thread u = s.thread u := by
  induction n generalizing s with
  | zero => rfl
  | succ k ih =>
    simp only [List.replicate_succ, Sys.run]
    rw [ih, Sys.step_other os s t u h]

/-- A thread that runs alone while the mutex is free or its own returns within
five steps and leaves the mutex free. -/
theorem Sys.run_alone (os : OS) (p : DWORD) (w : Bool → HWND)
    (hpid : ∀ t, os.GetWindowThreadProcessId (w t) = p) (t : Bool) (s : Sys)
    (hinv : Sys.Inv p w s) (hfree : s.mapMutex = none ∨ s.mapMutex = some t) :
    ((Sys.run os (List.replicate 5 t) s).thread t).pc = PC.done ∧
    (Sys.run os (List.replicate 5 t) s).mapMutex = none := by
  obtain ⟨h1, h2⟩ := Sys.run_rank os p w hpid t 5 s hinv hfree
  have hr := PC.rank_le (s.thread t).pc
  have hd : ((Sys.run os (List.replicate 5 t) s).thread t).pc = PC.done :=
    PC.done_of_rank _ (by omega)
  refine ⟨hd, ?_⟩
  rcases h2 with h | h
  · exact h
  · have hinv' := Sys.run_inv os p w hpid (List.replicate 5 t) s hinv
    have := (hinv'.mutex t).1 h
    rw [hd] at this
    exact Bool.noConfusion this

/-- From every reachable state both threads can return: let the owner of the
mutex, if there is one, run first, then the other thread. -/
theorem Sys.can_finish (os : OS) (p : DWORD) (w : Bool → HWND)
    (hpid : ∀ t, os.GetWindowThreadProcessId (w t) = p) (s : Sys) (hinv : Sys.Inv p w s) :
    ∃ ext, (Sys.run os ext s).finished := by
  have hex : ∃ h : Bool, s.mapMutex = none ∨ s.mapMutex = some h := by
    cases hm : s.mapMutex with
    | none => exact ⟨false, Or.inl rfl⟩
    | some o => exact ⟨o, Or.inr rfl⟩
  obtain ⟨h, hfree⟩ := hex
  refine ⟨List.replicate 5 h ++ List.replicate 5 (!h), ?_⟩
  rw [Sys.run_append]
  obtain ⟨hd1, hm1⟩ := Sys.run_alone os p w hpid h s hinv hfree
  have hinv1 := Sys.run_inv os p w hpid (List.replicate 5 h) s hinv
  obtain ⟨hd2, _⟩ := Sys.run_alone os p w hpid (!h) _ hinv1 (Or.inl hm1)
  have hne : h ≠ !h := by cases h <;> decide
  have hd1' : ((Sys.run os (List.replicate 5 (!h))
      (Sys.run os (List.replicate 5 h) s)).thread h).pc = PC.done := by
    rw [Sys.run_other os (!h) h hne]
    exact hd1
  cases h with
  | false => exact ⟨hd1', hd2⟩
  | true => exact ⟨hd2, hd1'⟩

/-- A thread that runs alone from the entry of the function, with the mutex
free, returns what `IsFirstOlkExeWindow` returns and leaves the registry that
`IsFirstOlkExeWindow` leaves. -/
theorem Sys.run_alone_eq (os : OS) (t : Bool) (s : Sys) (g : Globals)
    (hg : g.firstOlkWindowMap = s.firstOlkWindowMap) (hm : s.mapMutex = none)
    (hpc : (s.thread t).pc = PC.start) :
    ((Sys.run os (List.replicate 5 t) s).thread t).pc = PC.done ∧
    ((Sys.run os (List.replicate 5 t) s).thread t).ret =
      (IsFirstOlkExeWindow os (s.thread t).hwnd g).1 ∧
    (Sys.run os (List.replicate 5 t) s).firstOlkWindowMap =
      (IsFirstOlkExeWindow os (s.thread t).hwnd g).2.firstOlkWindowMap ∧
    (Sys.run os (List.replicate 5 t) s).mapMutex = none := by
  by_cases hf : s.firstOlkWindowMap.find (os.GetWindowThreadProcessId (s.thread t).hwnd) = none
  · simp [List.replicate, Sys.run, Sys.step, Sys.setThread, hpc, hm, hf, IsFirstOlkExeWindow, hg]
  · simp [List.replicate, Sys.run, Sys.step, Sys.setThread, hpc, hm, hf, IsFirstOlkExeWindow, hg]

/-- C10: two threads call `IsFirstOlkExeWindow` at the same time, for two
different windows `w0` and `w1` of a process `p` without registry entry.
Whatever the schedule (the order in which the threads take their steps, a
thread waiting while the other owns `mapMutex`), the threads can always run on
until both have returned, and whenever both have returned exactly one of them
has returned true and the registry maps `p` to the window of that thread. -/
theorem C10_exactly_one_thread_wins (os : OS) (p : DWORD) (w0 w1 : HWND) (m : UMap HWND)
    (h0 : os.GetWindowThreadProcessId w0 = p) (h1 : os.GetWindowThreadProcessId w1 = p)
    (hne : w0 ≠ w1) (habs : m.find p = none) (sched : List Bool) :
    (∃ ext, (Sys.run os (sched ++ ext) (Sys.init m w0 w1)).finished) ∧
    ((Sys.run os sched (Sys.init m w0 w1)).finished →
      (((Sys.run os sched (Sys.init m w0 w1)).thread false).ret = true ∧
        ((Sys.run os sched (Sys.init m w0 w1)).thread true).ret = false ∧
        (Sys.run os sched (Sys.init m w0 w1)).firstOlkWindowMap.find p = some w0) ∨
      (((Sys.run os sched (Sys.init m w0 w1)).thread false).ret = false ∧
        ((Sys.run os sched (Sys.init m w0 w1)).thread true).ret = true ∧
        (Sys.run os sched (Sys.init m w0 w1)).firstOlkWindowMap.find p = some w1)) := by
  have hpid : ∀ t : Bool, os.GetWindowThreadProcessId ((fun t => if t then w1 else w0) t) = p := by
    intro t
    cases t
    · simpa using h0
    · simpa using h1
  have hinv := Sys.run_inv os p _ hpid sched _ (Sys.init_inv p m w0 w1 habs)
  constructor
  · obtain ⟨ext, hext⟩ := Sys.can_finish os p _ hpid _ hinv
    exact ⟨ext, by rw [Sys.run_append]; exact hext⟩
  · intro hfin
    obtain ⟨hf, ht⟩ := hfin
    have rf := hinv.ret false (by rw [hf]; rfl)
    have rt := hinv.ret true (by rw [ht]; rfl)
    have hfound := hinv.found false (by rw [hf]; rfl)
    obtain ⟨x, hx⟩ := Option.ne_none_iff_exists'.1 hfound
    obtain ⟨t, hxt, _⟩ := hinv.winner x hx
    simp only [Bool.false_eq_true, if_false, if_true] at rf rt
    cases t with
    | false =>
      simp only [Bool.false_eq_true, if_false] at hxt
      subst hxt
      refine Or.inl ⟨rf.2 hx, ?_, hx⟩
      cases hr : ((Sys.run os sched (Sys.init m x w1)).thread true).ret with
      | false => rfl
      | true =>
        have := rt.1 hr
        rw [hx] at this
        exact absurd (Option.some.inj this) hne
    | true =>
      simp only [if_true] at hxt
      subst hxt
      refine Or.inr ⟨?_, rt.2 hx, hx⟩
      cases hr : ((Sys.run os sched (Sys.init m w0 x)).thread false).ret with
      | false => rfl
      | true =>
        have := rf.1 hr
        rw [hx] at this
        exact absurd (Option.some.inj this).symm hne

/-- C10 at a concrete schedule for windows 7 and 8 of process 100: both
threads return, and the outcome is one of the two the theorem allows. -/
theorem C10_exactly_one_thread_wins_witness :
    (Sys.run (sampleOS 100 "olk.exe" 9) sampleSchedule (Sys.init [] 7 8)).finished ∧
    ((((Sys.run (sampleOS 100 "olk.exe" 9) sampleSchedule (Sys.init [] 7 8)).thread false).ret
          = true ∧
        ((Sys.run (sampleOS 100 "olk.exe" 9) sampleSchedule (Sys.init [] 7 8)).thread true).ret
          = false ∧
        (Sys.run (sampleOS 100 "olk.exe" 9) sampleSchedule
          (Sys.init [] 7 8)).firstOlkWindowMap.find 100 = some 7) ∨
      (((Sys.run (sampleOS 100 "olk.exe" 9) sampleSchedule (Sys.init [] 7 8)).thread false).ret
          = false ∧
        ((Sys.run (sampleOS 100 "olk.exe" 9) sampleSchedule (Sys.init [] 7 8)).thread true).ret
          = true ∧
        (Sys.run (sampleOS 100 "olk.exe" 9) sampleSchedule
          (Sys.init [] 7 8)).firstOlkWindowMap.find 100 = some 8)) :=
  have hfin : (Sys.run (sampleOS 100 "olk.exe" 9) sampleSchedule (Sys.init [] 7 8)).finished :=
    ⟨by decide, by decide⟩
  ⟨hfin,
    (C10_exactly_one_thread_wins (sampleOS 100 "olk.exe" 9) 100 7 8 [] rfl rfl (by decide) rfl
      sampleSchedule).2 hfin⟩

end OlkWindowHook
